import Mathlib

/-!
Shallow embedding of the expense-statement extraction pipeline of this
repository — the `utils/fileProcessor` module (`parseDate`, `parseAmount`,
`categorizeTransaction`, `processCSV`, `processExcel`, `processPDF`,
`processFile`) and the FileUpload processor components
(`UniversalUPIProcessor`, `PhonePeProcessor`, `GPayProcessor`,
`PaytmProcessor`, `SuperMoneyProcessor`) — together with proofs settling
the specification claims about them.

Modelling conventions:
* JavaScript strings are Lean `String`s; the character-level logic is
  defined on `List Char` with thin `String` wrappers.
* JavaScript numbers are modelled as exact decimals (`JsNum`, a
  mantissa/scale pair in canonical form).  `parseFloat` is modelled as
  an exact decimal parser: where JS yields `NaN` the model yields
  `none`.  IEEE rounding, exponent notation and the special tokens
  `Infinity`/`NaN` are outside the model (none of the pipeline's
  statement tokens exercise them).
* `new Date(y, m, d)` is modelled by `jsMakeDate`, including the
  ECMAScript 0..99 → 1900+y year remapping and field normalization
  (out-of-range day/month roll over), with the JS time-value range
  approximated at year granularity.  `toISOString().split('T')[0]` is
  modelled by `isoFmt`.  A UTC host clock is assumed: the code builds
  dates with the local-time constructor and formats them in UTC, which
  agrees exactly on a UTC host.
* The host `new Date(string)` parser (used as a fallback) is modelled on
  the legacy "MonthName D, YYYY" form that the code exercises; strings
  outside that form are modelled as unparseable.
-/

namespace Expense

/-! ## Character and list utilities (JS string primitives) -/

/-- JS `\s` whitespace class, restricted to the ASCII whitespace the
statement formats exercise. -/
def isWsChar (c : Char) : Bool :=
  c == ' ' || c == '\t' || c == '\n' || c == '\r' || c == '\x0b' || c == '\x0c'

/-- Decimal digit test, as in the JS regex class `\d`. -/
def isDigitChar (c : Char) : Bool := '0' ≤ c && c ≤ '9'

/-- ASCII letter test, as in the JS regex class `[A-Za-z]`. -/
def isAlphaChar (c : Char) : Bool := ('a' ≤ c && c ≤ 'z') || ('A' ≤ c && c ≤ 'Z')

/-- JS regex `\w` word-character class. -/
def isWordChar (c : Char) : Bool := isAlphaChar c || isDigitChar c || c == '_'

/-- ASCII lower-casing of one character (JS `toLowerCase` on the inputs
exercised, which are ASCII apart from the rupee sign, unchanged by it). -/
def toLowerChar (c : Char) : Char :=
  if 'A' ≤ c && c ≤ 'Z' then Char.ofNat (c.toNat + 32) else c

/-- JS `String.prototype.toLowerCase`. -/
def lowerL (cs : List Char) : List Char := cs.map toLowerChar

/-- Pattern `p` occurs at the start of `t`. -/
def prefixAt : List Char → List Char → Bool
  | [], _ => true
  | _ :: _, [] => false
  | p :: ps, t :: ts => p == t && prefixAt ps ts

/-- JS `String.prototype.includes` (substring occurrence). -/
def containsSub (text pat : List Char) : Bool :=
  match text with
  | [] => pat.isEmpty
  | _ :: ts => prefixAt pat text || containsSub ts pat

/-- JS `String.prototype.trim`. -/
def trimL (cs : List Char) : List Char :=
  ((cs.dropWhile isWsChar).reverse.dropWhile isWsChar).reverse

/-- Drop trailing JS whitespace only. -/
def dropWsEnd (cs : List Char) : List Char :=
  (cs.reverse.dropWhile isWsChar).reverse

/-- JS `String.prototype.endsWith`. -/
def endsWithL (text pat : List Char) : Bool :=
  prefixAt pat.reverse text.reverse

/-- JS `String.prototype.split` with a one-character separator:
`"a/b".split("/") = ["a","b"]`, `"".split("/") = [""]`. -/
def splitOnCharL (sep : Char) : List Char → List (List Char)
  | [] => [[]]
  | c :: cs =>
    if c == sep then [] :: splitOnCharL sep cs
    else
      match splitOnCharL sep cs with
      | [] => [[c]]
      | p :: ps => (c :: p) :: ps

/-- JS `str.replace(/\s+/g, ' ')`: collapse every whitespace run to one
space.  The flag records whether the previous character was whitespace. -/
def collapseWsAux : Bool → List Char → List Char
  | _, [] => []
  | prevWs, c :: cs =>
    if isWsChar c then
      if prevWs then collapseWsAux true cs else ' ' :: collapseWsAux true cs
    else c :: collapseWsAux false cs

/-- Collapse whitespace runs to single spaces. -/
def collapseWs (cs : List Char) : List Char := collapseWsAux false cs

/-! ## Numeric string primitives: `parseInt`, `parseFloat`, rendering -/

/-- Numeric value of a digit character. -/
def digitVal (c : Char) : Nat := c.toNat - '0'.toNat

/-- Fold a digit string into a number, most significant digit first. -/
def natOfDigitsAux : Nat → List Char → Nat
  | acc, [] => acc
  | acc, c :: cs => natOfDigitsAux (acc * 10 + digitVal c) cs

/-- JS `parseInt(s)` with the default radix: skip leading whitespace,
optional sign, then the longest digit prefix; `none` models `NaN`. -/
def jsParseInt (cs : List Char) : Option Int :=
  let s1 := cs.dropWhile isWsChar
  let signNeg : Bool := match s1 with | c :: _ => c == '-' | [] => false
  let s2 : List Char := match s1 with
    | c :: rest => if c == '-' || c == '+' then rest else c :: rest
    | [] => []
  let ds := s2.takeWhile isDigitChar
  if ds.isEmpty then none
  else
    let n : Int := (natOfDigitsAux 0 ds : Int)
    some (if signNeg then -n else n)

/-- A JS number value, as the pipeline produces and consumes them: an
exact decimal `mant / 10 ^ scale` kept in canonical form (no trailing
zero digits in the fraction), so that structural equality is value
equality — faithfully to JS, where `parseFloat("1234.50") === 1234.5`.
The pipeline never adds or divides amounts, so decimals suffice; IEEE
rounding and the special values `NaN`/`Infinity` are outside the model
(`none` stands for `NaN` where it can arise). -/
structure JsNum where
  mant : Int
  scale : Nat
deriving DecidableEq, Repr

/-- Strip trailing zero digits of the fraction.  Structural fuel; the
caller passes the scale itself, which always suffices. -/
def JsNum.normF : Nat → Int → Nat → JsNum
  | 0, m, _ => ⟨m, 0⟩
  | f + 1, m, s =>
    if s = 0 then ⟨m, 0⟩
    else if Int.emod m 10 = 0 then JsNum.normF f (Int.ediv m 10) (s - 1)
    else ⟨m, s⟩

/-- Canonical decimal from mantissa and scale. -/
def JsNum.norm (m : Int) (s : Nat) : JsNum := JsNum.normF (s + 1) m s

/-- Negation (canonical form is preserved; `-0` is `0`, matching the JS
truthiness the callers rely on). -/
def JsNum.neg (n : JsNum) : JsNum := ⟨-n.mant, n.scale⟩

/-- `Math.abs`. -/
def JsNum.abs (n : JsNum) : JsNum :=
  ⟨if n.mant < 0 then -n.mant else n.mant, n.scale⟩

instance : OfNat JsNum n := ⟨⟨(n : Int), 0⟩⟩

instance : Neg JsNum := ⟨JsNum.neg⟩

instance : OfScientific JsNum :=
  ⟨fun m b e => if b then JsNum.norm (m : Int) e else ⟨(m : Int) * (10 : Int) ^ e, 0⟩⟩

/-- The rational value of a decimal (for stating value-level facts). -/
def JsNum.toRat (n : JsNum) : ℚ := (n.mant : ℚ) / ((10 : ℚ) ^ n.scale)

/-- JS `parseFloat(s)`: skip leading whitespace, optional sign, longest
prefix of the form `digits[.digits]` (at least one digit), trailing junk
ignored; `none` models `NaN`.  Exponent suffixes and the literal
`Infinity`, which no statement token exercises, are not modelled. -/
def jsParseFloat (cs : List Char) : Option JsNum :=
  let s1 := cs.dropWhile isWsChar
  let signNeg : Bool := match s1 with | c :: _ => c == '-' | [] => false
  let s2 : List Char := match s1 with
    | c :: rest => if c == '-' || c == '+' then rest else c :: rest
    | [] => []
  let ip := s2.takeWhile isDigitChar
  let s3 := s2.drop ip.length
  let fp : List Char := match s3 with
    | '.' :: rest => rest.takeWhile isDigitChar
    | _ => []
  if ip.isEmpty && fp.isEmpty then none
  else
    let v := JsNum.norm (natOfDigitsAux (natOfDigitsAux 0 ip) fp : Int) fp.length
    some (if signNeg then v.neg else v)

/-- Render one digit. -/
def digitChar : Nat → Char
  | 0 => '0' | 1 => '1' | 2 => '2' | 3 => '3' | 4 => '4'
  | 5 => '5' | 6 => '6' | 7 => '7' | 8 => '8' | _ => '9'

/-- Decimal rendering of a natural number, accumulator style.  The first
argument is structural fuel; `natToChars` supplies enough of it, so the
fuel-exhausted branch is never reached there. -/
def natDigitsAux : Nat → Nat → List Char → List Char
  | 0, n, acc => digitChar n :: acc
  | f + 1, n, acc =>
    if n < 10 then digitChar n :: acc
    else natDigitsAux f (n / 10) (digitChar (n % 10) :: acc)

/-- Decimal rendering of a natural number. -/
def natToChars (n : Nat) : List Char := natDigitsAux n n []

/-- Zero-pad a decimal rendering to width `w` (as `toISOString` does for
year, month and day fields). -/
def padTo (w n : Nat) : List Char :=
  let ds := natToChars n
  List.replicate (w - ds.length) '0' ++ ds

/-! ## The JS `Date` value model

`new Date(y, m0, d)` (month `m0` zero-based) normalizes its fields:
out-of-range months carry into the year, out-of-range days roll through
the months.  Years 0..99 are remapped to 1900..1999.  The result is a
civil (proleptic Gregorian) date; `toISOString().split('T')[0]` renders
it as `yyyy-mm-dd` (UTC host assumed, see the header comment). -/

/-- A civil date as held by a JS `Date` (year, month 1..12, day). -/
structure CivilDate where
  year : Int
  month : Int
  day : Int
deriving DecidableEq, Repr

/-- Gregorian leap-year rule (as implemented by JS `Date`). -/
def isLeap (y : Int) : Bool :=
  (Int.emod y 4 == 0 && Int.emod y 100 != 0) || Int.emod y 400 == 0

/-- Length of month `m` (1..12) of year `y`. -/
def monthLen (y m : Int) : Int :=
  if m = 2 then (if isLeap y then 29 else 28)
  else if m = 4 ∨ m = 6 ∨ m = 9 ∨ m = 11 then 30
  else 31

/-- Roll an over-long day count forward through the months.  The first
argument is structural fuel; callers supply `d.toNat + 1`, which always
suffices because every step removes at least 28 days. -/
def normUpF : Nat → Int → Int → Int → CivilDate
  | 0, y, m, d => ⟨y, m, d⟩
  | f + 1, y, m, d =>
    if monthLen y m < d then
      normUpF f (if m = 12 then y + 1 else y) (if m = 12 then 1 else m + 1)
        (d - monthLen y m)
    else ⟨y, m, d⟩

/-- Roll a non-positive day count backward through the months; fuel as in
`normUpF`, with `(1 - d).toNat + 1` always sufficient. -/
def normDownF : Nat → Int → Int → Int → CivilDate
  | 0, y, m, d => ⟨y, m, d⟩
  | f + 1, y, m, d =>
    if d < 1 then
      normDownF f (if m = 1 then y - 1 else y) (if m = 1 then 12 else m - 1)
        (d + monthLen (if m = 1 then y - 1 else y) (if m = 1 then 12 else m - 1))
    else ⟨y, m, d⟩

/-- JS `new Date(y, m0, d)` (with the UTC-host convention): 0..99 year
remap, month carry via floor division, day rollover, and the JS
time-value range limit approximated at year granularity.  `none` models
an invalid date. -/
def jsMakeDate (y m0 d : Int) : Option CivilDate :=
  let y1 := if 0 ≤ y ∧ y ≤ 99 then 1900 + y else y
  let y2 := y1 + Int.ediv m0 12
  let m := Int.emod m0 12 + 1
  let dt :=
    if d < 1 then normDownF ((1 - d).toNat + 1) y2 m d
    else normUpF (d.toNat + 1) y2 m d
  if dt.year < -271821 ∨ 275760 < dt.year then none else some dt

/-- The `yyyy-mm-dd` rendering produced by `toISOString().split('T')[0]`
(for the non-negative years the pipeline's inputs produce). -/
def isoFmtC (dt : CivilDate) : List Char :=
  padTo 4 dt.year.toNat ++ '-' :: (padTo 2 dt.month.toNat ++ '-' :: padTo 2 dt.day.toNat)

/-- String form of `isoFmtC`. -/
def isoFmt (dt : CivilDate) : String := String.mk (isoFmtC dt)

/-- Lower-cased three-letter month names (as in the source's
`monthNames` table and the host date parser's month vocabulary). -/
def monthNames : List (List Char) :=
  ["jan", "feb", "mar", "apr", "may", "jun",
   "jul", "aug", "sep", "oct", "nov", "dec"].map String.data

/-- Recognize the legacy `MonthName D, YYYY` form (with optional comma)
that the host `new Date(string)` parser accepts on the code's inputs,
returning the month index and the raw day and year digit groups. -/
def parseMonthNameForm (cs : List Char) : Option (Nat × List Char × List Char) :=
  let t := trimL cs
  let w := t.takeWhile isAlphaChar
  if w.length < 3 then none
  else
    match monthNames.findIdx? (fun m => prefixAt m (lowerL (w.take 3))) with
    | none => none
    | some mi =>
      let r1 := t.drop w.length
      let ws1 := r1.takeWhile isWsChar
      if ws1.isEmpty then none
      else
        let r2 := r1.drop ws1.length
        let ds := r2.takeWhile isDigitChar
        if ds.isEmpty ∨ 2 < ds.length then none
        else
          let r3 := r2.drop ds.length
          let r4 : List Char := match r3 with | ',' :: rest => rest | _ => r3
          let r5 := r4.dropWhile isWsChar
          let ys := r5.takeWhile isDigitChar
          if ys.length ≠ 4 then none
          else if ¬ (trimL (r5.drop ys.length)).isEmpty then none
          else some (mi, ds, ys)

/-- Model of the host `new Date(string)` parser, restricted to the legacy
`MonthName D, YYYY` form that the code exercises; any string outside
that form is modelled as unparseable.  Day rollover matches the host
behaviour by construction through `jsMakeDate`. -/
def jsDateParse (cs : List Char) : Option CivilDate :=
  match parseMonthNameForm cs with
  | none => none
  | some (mi, ds, ys) =>
    match jsParseInt ys, jsParseInt ds with
    | some y, some dd => jsMakeDate y (mi : Int) dd
    | _, _ => none

/-! ## Shared date-parsing pieces of `fileProcessor.parseDate` and the
`UniversalUPIProcessor` `parseDate` -/

/-- Strip the `^(Date|Dt|D):\s*` prefix (case-insensitive), alternatives
tried in source order. -/
def stripDatePre (cs : List Char) : List Char :=
  let l := lowerL cs
  if prefixAt "date:".data l then (cs.drop 5).dropWhile isWsChar
  else if prefixAt "dt:".data l then (cs.drop 3).dropWhile isWsChar
  else if prefixAt "d:".data l then (cs.drop 2).dropWhile isWsChar
  else cs

/-- The separator normalization `replace(/[\/\-\.]/g, '/')`. -/
def normSep (c : Char) : Char :=
  if c = '/' ∨ c = '-' ∨ c = '.' then '/' else c

/-- Two-digit-year fixup: `year.length === 2` rewrites to `20yy` when
`parseInt(year) < 50` and to `19yy` otherwise (`NaN < 50` is false). -/
def fixY2 (year : List Char) : List Char :=
  if year.length = 2 then
    match jsParseInt year with
    | some n => if n < 50 then '2' :: '0' :: year else '1' :: '9' :: year
    | none => '1' :: '9' :: year
  else year

/-- Which of the three component orders a format string denotes: the code
branches only on `format.startsWith('dd')` / `startsWith('MM')`. -/
inductive FieldOrder | dmy | mdy | ymd
deriving DecidableEq, Repr

/-- Component order of one entry of the format table. -/
def orderOf (fmt : String) : FieldOrder :=
  if prefixAt "dd".data fmt.data then .dmy
  else if prefixAt "MM".data fmt.data then .mdy
  else .ymd

/-- One iteration of the format loop shared by both `parseDate`
implementations: assign the three slash-separated parts according to the
format's order, fix a two-digit year, build the date, and keep it only if
the year component survived (`getFullYear() === parseInt(year)`). -/
def tryFormatParts (ord : FieldOrder) (parts : List (List Char)) : Option CivilDate :=
  match parts with
  | [p1, p2, p3] =>
    let day : List Char := match ord with | .dmy => p1 | .mdy => p2 | .ymd => p3
    let month : List Char := match ord with | .dmy => p2 | .mdy => p1 | .ymd => p2
    let yr : List Char := match ord with | .dmy => p3 | .mdy => p3 | .ymd => p1
    let yr := fixY2 yr
    match jsParseInt yr, jsParseInt month, jsParseInt day with
    | some y, some mo, some dd =>
      match jsMakeDate y (mo - 1) dd with
      | some dt => if dt.year = y then some dt else none
      | none => none
    | _, _, _ => none
  | _ => none

/-- One keyword test: `text.includes(kw)` for any keyword of the set. -/
def anyKw (text : List Char) (kws : List String) : Bool :=
  kws.any (fun k => containsSub text k.data)

namespace FileProcessor

/-! ## `utils/fileProcessor` (the `part_005` module) -/

/-- The module's `DATE_FORMATS` table. -/
def DATE_FORMATS : List String :=
  ["dd/MM/yyyy", "dd-MM-yyyy", "dd.MM.yyyy", "MM/dd/yyyy", "MM-dd-yyyy",
   "yyyy-MM-dd", "yyyy/MM/dd", "dd/MM/yy", "dd-MM-yy", "MM/dd/yy",
   "MM-dd-yy", "yy-MM-dd", "yy/MM/dd", "MMM dd, yyyy", "dd MMM yyyy",
   "yyyy MMM dd"]

/-- `fileProcessor.parseDate`: empty input is falsy (`null`); otherwise
trim, strip a `Date:`-style prefix, normalize separators, split on `/`,
try every entry of `DATE_FORMATS` (the split parts are the same for each
entry, so the first succeeding component order wins), validating only
that the year survived construction; finally fall back to the host
`new Date(string)` parser. -/
def parseDateCore (cs : List Char) : Option (List Char) :=
  if cs.isEmpty then none
  else
    let clean := stripDatePre (trimL cs)
    let parts := splitOnCharL '/' (clean.map normSep)
    match DATE_FORMATS.findSome? (fun f => tryFormatParts (orderOf f) parts) with
    | some dt => some (isoFmtC dt)
    | none =>
      match jsDateParse clean with
      | some dt => some (isoFmtC dt)
      | none => none

/-- String wrapper for `parseDateCore`. -/
def parseDate (s : String) : Option String :=
  (parseDateCore s.data).map String.mk

/-- Currency-symbol-or-comma class removed first by `parseAmount`. -/
def currencyOrComma (c : Char) : Bool :=
  c == '₹' || c == '$' || c == '€' || c == '£' || c == ','

/-- `fileProcessor.parseAmount`: remove currency symbols and commas, then
all whitespace; detect negativity from `-`, `(` or the substring `Dr`;
strip the characters of the class `[()DrCr]` (the individual characters
`(`, `)`, `D`, `r`, `C`); `parseFloat` the residue (`NaN` → `null`);
apply the sign to the absolute value. -/
def parseAmountCore (cs : List Char) : Option JsNum :=
  if cs.isEmpty then none
  else
    let clean := trimL ((cs.filter (fun c => !currencyOrComma c)).filter (fun c => !isWsChar c))
    let isNeg := clean.contains '-' || clean.contains '(' || containsSub clean ['D', 'r']
    let stripped := clean.filter (fun c => !(c == '(' || c == ')' || c == 'D' || c == 'r' || c == 'C'))
    match jsParseFloat stripped with
    | none => none
    | some v => some (if isNeg then v.abs.neg else v.abs)

/-- String wrapper for `parseAmountCore`. -/
def parseAmount (s : String) : Option JsNum := parseAmountCore s.data

/-- `fileProcessor.categorizeTransaction`: lower-case
`description + ' ' + (merchant || '')` and walk the keyword chains in
source order; no match falls through to `Miscellaneous`. -/
def categorizeTransaction (description merchant : String) : String :=
  let text := lowerL (description.data ++ ' ' :: merchant.data)
  if anyKw text ["swiggy", "zomato", "restaurant", "food", "cafe", "hotel",
      "mcdonalds", "starbucks", "dominos"] then "Food"
  else if anyKw text ["uber", "ola", "railway", "flight", "bus", "metro",
      "petrol", "fuel", "parking"] then "Travel"
  else if anyKw text ["amazon", "flipkart", "shopping", "mall", "store",
      "market"] then "Shopping"
  else if anyKw text ["electricity", "water", "gas", "airtel", "jio",
      "bill", "recharge", "mobile"] then "Bills"
  else if anyKw text ["movie", "cinema", "netflix", "spotify", "game",
      "concert"] then "Entertainment"
  else if anyKw text ["pharmacy", "hospital", "doctor", "medical",
      "health"] then "Health"
  else if anyKw text ["course", "book", "education", "training",
      "class"] then "Education"
  else if anyKw text ["investment", "sip", "mutual", "stock", "fd",
      "deposit"] then "Investment"
  else "Miscellaneous"

end FileProcessor

namespace UniversalUPI

/-! ## The `UniversalUPIProcessor` component -/

/-- The component's (shorter) format table. -/
def FORMATS : List String := ["dd/MM/yyyy", "MM/dd/yyyy", "yyyy-MM-dd", "dd-MM-yyyy"]

/-- Anchored match of `^(\w{3})\s+(\d{1,2}),?\s+(\d{4})$` returning the
captures (month word, day digits, year digits). -/
def matchMN1 (cs : List Char) : Option (List Char × List Char × List Char) :=
  let w := cs.take 3
  if w.length = 3 ∧ w.all isWordChar then
    let r1 := cs.drop 3
    let ws1 := r1.takeWhile isWsChar
    if ws1.isEmpty then none
    else
      let r2 := r1.drop ws1.length
      let ds := r2.takeWhile isDigitChar
      if ds.isEmpty ∨ 2 < ds.length then none
      else
        let r3 := r2.drop ds.length
        let r4 : List Char := match r3 with | ',' :: rest => rest | _ => r3
        let ws2 := r4.takeWhile isWsChar
        if ws2.isEmpty then none
        else
          let r5 := r4.drop ws2.length
          let ys := r5.takeWhile isDigitChar
          if ys.length = 4 ∧ r5.drop 4 = [] then some (w, ds, ys) else none
  else none

/-- Anchored match of `^(\d{1,2})\s+(\w{3}),?\s+(\d{4})$`, captures
returned in the same (month word, day digits, year digits) order. -/
def matchMN2 (cs : List Char) : Option (List Char × List Char × List Char) :=
  let ds := cs.takeWhile isDigitChar
  if ds.isEmpty ∨ 2 < ds.length then none
  else
    let r1 := cs.drop ds.length
    let ws1 := r1.takeWhile isWsChar
    if ws1.isEmpty then none
    else
      let r2 := r1.drop ws1.length
      let w := r2.take 3
      if w.length = 3 ∧ w.all isWordChar then
        let r3 := r2.drop 3
        let r4 : List Char := match r3 with | ',' :: rest => rest | _ => r3
        let ws2 := r4.takeWhile isWsChar
        if ws2.isEmpty then none
        else
          let r5 := r4.drop ws2.length
          let ys := r5.takeWhile isDigitChar
          if ys.length = 4 ∧ r5.drop 4 = [] then some (w, ds, ys) else none
      else none

/-- Resolve a matched month word against `monthNames` (`startsWith`, so
equality of the lower-cased three-letter word) and build the date. -/
def monthNameDate (t : List Char × List Char × List Char) : Option CivilDate :=
  match monthNames.findIdx? (fun m => prefixAt m (lowerL t.1)) with
  | none => none
  | some mi =>
    match jsParseInt t.2.2, jsParseInt t.2.1 with
    | some y, some dd => jsMakeDate y (mi : Int) dd
    | _, _ => none

/-- Format-loop step with the full component check
(`getFullYear`/`getMonth`/`getDate` must all round-trip). -/
def tryFormatPartsFull (ord : FieldOrder) (parts : List (List Char)) : Option CivilDate :=
  match parts with
  | [p1, p2, p3] =>
    let day : List Char := match ord with | .dmy => p1 | .mdy => p2 | .ymd => p3
    let month : List Char := match ord with | .dmy => p2 | .mdy => p1 | .ymd => p2
    let yr : List Char := match ord with | .dmy => p3 | .mdy => p3 | .ymd => p1
    let yr := fixY2 yr
    match jsParseInt yr, jsParseInt month, jsParseInt day with
    | some y, some mo, some dd =>
      match jsMakeDate y (mo - 1) dd with
      | some dt => if dt.year = y ∧ dt.month = mo ∧ dt.day = dd then some dt else none
      | none => none
    | _, _, _ => none
  | _ => none

/-- `UniversalUPIProcessor.parseDate`: the two anchored month-name
patterns first, then the four-entry format loop with full component
validation; no host-parser fallback. -/
def parseDateCore (cs : List Char) : Option (List Char) :=
  if cs.isEmpty then none
  else
    let clean := stripDatePre (trimL cs)
    if clean.isEmpty then none
    else
      match (matchMN1 clean).bind monthNameDate with
      | some dt => some (isoFmtC dt)
      | none =>
        match (matchMN2 clean).bind monthNameDate with
        | some dt => some (isoFmtC dt)
        | none =>
          let parts := splitOnCharL '/' (clean.map normSep)
          match FORMATS.findSome? (fun f => tryFormatPartsFull (orderOf f) parts) with
          | some dt => some (isoFmtC dt)
          | none => none

/-- String wrapper for the component's `parseDate`. -/
def parseDate (s : String) : Option String :=
  (parseDateCore s.data).map String.mk

/-- Strip the `^(Amount|Amt|Debit|Credit):\s*` label prefix
(case-insensitive, alternatives in source order). -/
def stripLabelPre (cs : List Char) : List Char :=
  let l := lowerL cs
  if prefixAt "amount:".data l then (cs.drop 7).dropWhile isWsChar
  else if prefixAt "amt:".data l then (cs.drop 4).dropWhile isWsChar
  else if prefixAt "debit:".data l then (cs.drop 6).dropWhile isWsChar
  else if prefixAt "credit:".data l then (cs.drop 7).dropWhile isWsChar
  else cs

/-- Strip the `^(rs\.?|inr|₹)\s*` currency prefix (case-insensitive,
longest `rs.` alternative first as the regex engine would take it). -/
def stripAmtPre (cs : List Char) : List Char :=
  let l := lowerL cs
  if prefixAt "rs.".data l then (cs.drop 3).dropWhile isWsChar
  else if prefixAt "rs".data l then (cs.drop 2).dropWhile isWsChar
  else if prefixAt "inr".data l then (cs.drop 3).dropWhile isWsChar
  else if prefixAt "₹".data l then (cs.drop 1).dropWhile isWsChar
  else cs

/-- One anchored suffix strip `\s*pat$` (case-insensitive): remove the
suffix together with the whitespace run before it, or fail. -/
def stripSufCI (pat : String) (cs : List Char) : Option (List Char) :=
  if endsWithL (lowerL cs) pat.data then
    some (dropWsEnd (cs.take (cs.length - pat.data.length)))
  else none

/-- First succeeding alternative of an anchored suffix regex, identity
when none matches. -/
def stripSufAlts (pats : List String) (cs : List Char) : List Char :=
  match pats.findSome? (fun p => stripSufCI p cs) with
  | some r => r
  | none => cs

/-- Global case-insensitive removal of `dr|debit` occurrences
(`replace(/dr|debit/gi, '')`), scanning left to right, `dr` tried first
at each position.  Fuel equals the input length; every step consumes at
least one character, so it always suffices. -/
def removeDrDebitF : Nat → List Char → List Char
  | 0, cs => cs
  | _ + 1, [] => []
  | f + 1, c :: cs =>
    if prefixAt "dr".data (lowerL (c :: cs)) then removeDrDebitF f (cs.drop 1)
    else if prefixAt "debit".data (lowerL (c :: cs)) then removeDrDebitF f (cs.drop 4)
    else c :: removeDrDebitF f cs

/-- Wrapper supplying the fuel for `removeDrDebitF`. -/
def removeDrDebit (cs : List Char) : List Char := removeDrDebitF cs.length cs

/-- `UniversalUPIProcessor.parseAmount`: trim and strip a label prefix;
strip currency prefix and the anchored currency/`cr`/`dr`/word suffixes;
detect negativity from the (lower-case, case-sensitive) substrings `dr`
or `debit`, a minus sign or a parenthesis; on a negative match also
remove parentheses and `dr`/`debit` occurrences; drop commas,
`parseFloat`, and apply the sign to the absolute value. -/
def parseAmountCore (cs : List Char) : Option JsNum :=
  if cs.isEmpty then none
  else
    let clean := stripLabelPre (trimL cs)
    if clean.isEmpty then none
    else
      let p1 := stripAmtPre clean
      let p2 := stripSufAlts ["rs.", "rs", "inr", "₹"] p1
      let p3 := stripSufAlts ["cr.", "cr"] p2
      let p4 := stripSufAlts ["dr.", "dr"] p3
      let p5 := stripSufAlts ["debit", "credit", "paid", "received", "balance", "amount"] p4
      let p6 := trimL p5
      let isNeg := containsSub p6 "dr".data || containsSub p6 "debit".data ||
        p6.contains '-' || p6.contains '('
      let p7 := if isNeg then trimL (removeDrDebit (p6.filter (fun c => !(c == '(' || c == ')')))) else p6
      match jsParseFloat (p7.filter (fun c => c != ',')) with
      | none => none
      | some v => some (if isNeg then v.abs.neg else v.abs)

/-- String wrapper for the component's `parseAmount`. -/
def parseAmount (s : String) : Option JsNum := parseAmountCore s.data

/-- The component's `categorizeTransaction` (its own keyword sets; note
Health is tested before Entertainment here). -/
def categorizeTransaction (description merchant : String) : String :=
  let text := lowerL (description.data ++ ' ' :: merchant.data)
  if anyKw text ["swiggy", "zomato", "restaurant", "food", "cafe",
      "mcdonalds", "kfc", "domino", "pizza"] then "Food"
  else if anyKw text ["uber", "ola", "metro", "petrol", "fuel", "rapido",
      "ride", "taxi", "cab"] then "Travel"
  else if anyKw text ["amazon", "flipkart", "shopping", "mall", "store",
      "clothes"] then "Shopping"
  else if anyKw text ["electricity", "jio", "airtel", "recharge", "bill",
      "rent", "water", "gas"] then "Bills"
  else if anyKw text ["hospital", "clinic", "pharma", "medicine",
      "doctor", "medical"] then "Health"
  else if anyKw text ["movie", "netflix", "spotify", "entertainment",
      "game"] then "Entertainment"
  else "Miscellaneous"

end UniversalUPI

/-! ## The normalized transaction and result records -/

/-- The `ProcessedTransaction` record (amounts as exact decimals). -/
structure ProcessedTransaction where
  date : String
  amount : JsNum
  description : String
  category : String
  paymentMode : String
  merchant : String
deriving DecidableEq, Repr

/-- The `ProcessingResult` record (`ExtractionResult` of the spec). -/
structure ProcessingResult where
  transactions : List ProcessedTransaction
  errors : List String
  warnings : List String
deriving DecidableEq, Repr

namespace PhonePe

/-! ## The `PhonePeProcessor` component -/

/-- Transaction direction keyword of the PhonePe grammar. -/
inductive TxType | DEBIT | CREDIT
deriving DecidableEq, Repr

/-- The rendering of a `TxType` used in descriptions. -/
def TxType.str : TxType → String
  | .DEBIT => "DEBIT"
  | .CREDIT => "CREDIT"

/-- A raw match of the PhonePe pattern
`([A-Za-z]{3}\s+\d{1,2},\s+\d{4})\s+Paid to\s+([\s\S]*?)\s+(DEBIT|CREDIT)\s+₹(\d+(?:\.\d{1,2})?)`
(captures before post-processing). -/
structure Raw where
  date : List Char
  merchant : List Char
  type : TxType
  amount : List Char
deriving DecidableEq, Repr

/-- Match the pattern tail `\s+(DEBIT|CREDIT)\s+₹(\d+(?:\.\d{1,2})?)`
at the given position, returning the direction, the amount capture and
the remaining text. -/
def tailMatch (cs : List Char) : Option (TxType × List Char × List Char) :=
  let ws := cs.takeWhile isWsChar
  if ws.isEmpty then none
  else
    let r1 := cs.drop ws.length
    let tyr : Option (TxType × List Char) :=
      if prefixAt "DEBIT".data r1 then some (TxType.DEBIT, r1.drop 5)
      else if prefixAt "CREDIT".data r1 then some (TxType.CREDIT, r1.drop 6)
      else none
    match tyr with
    | none => none
    | some (ty, r2) =>
      let ws2 := r2.takeWhile isWsChar
      if ws2.isEmpty then none
      else
        match r2.drop ws2.length with
        | '₹' :: r4 =>
          let ds := r4.takeWhile isDigitChar
          if ds.isEmpty then none
          else
            let r5 := r4.drop ds.length
            match r5 with
            | '.' :: r6 =>
              let fs := (r6.takeWhile isDigitChar).take 2
              if fs.isEmpty then some (ty, ds, r5)
              else some (ty, ds ++ '.' :: fs, r6.drop fs.length)
            | _ => some (ty, ds, r5)
        | _ => none

/-- Lazy merchant capture `([\s\S]*?)`: grow the merchant span one
character at a time until the pattern tail matches (the regex semantics
of a lazy quantifier followed by a required tail). -/
def merchArm : List Char → List Char → Option (List Char × TxType × List Char × List Char)
  | acc, rest =>
    match tailMatch rest with
    | some (ty, amt, r) => some (acc.reverse, ty, amt, r)
    | none =>
      match rest with
      | [] => none
      | c :: rs => merchArm (c :: acc) rs

/-- Attempt the full PhonePe pattern at the current position, returning
the raw captures and the text after the match. -/
def matchAt (cs : List Char) : Option (Raw × List Char) :=
  match cs with
  | a :: b :: c :: r0 =>
    if isAlphaChar a && isAlphaChar b && isAlphaChar c then
      let ws1 := r0.takeWhile isWsChar
      if ws1.isEmpty then none
      else
        let r1 := r0.drop ws1.length
        let ds := r1.takeWhile isDigitChar
        if ds.isEmpty ∨ 2 < ds.length then none
        else
          match r1.drop ds.length with
          | ',' :: r2 =>
            let ws2 := r2.takeWhile isWsChar
            if ws2.isEmpty then none
            else
              let r3 := r2.drop ws2.length
              let ys := r3.takeWhile isDigitChar
              if ys.length = 4 then
                let dateCap := a :: b :: c :: (ws1 ++ ds ++ ',' :: (ws2 ++ ys))
                let r4 := r3.drop 4
                let ws3 := r4.takeWhile isWsChar
                if ws3.isEmpty then none
                else
                  let r5 := r4.drop ws3.length
                  if prefixAt "Paid to".data r5 then
                    let r6 := r5.drop 7
                    let ws4 := r6.takeWhile isWsChar
                    if ws4.isEmpty then none
                    else
                      match merchArm [] (r6.drop ws4.length) with
                      | some (merch, ty, amt, rest) =>
                        some (⟨dateCap, merch, ty, amt⟩, rest)
                      | none => none
                  else none
              else none
          | _ => none
    else none
  | _ => none

/-- The global `exec` scan: try the pattern at each position, continuing
after each match.  Fuel equals the text length plus one; every step
consumes at least one character, so it always suffices. -/
def scanF : Nat → List Char → List Raw
  | 0, _ => []
  | f + 1, cs =>
    match matchAt cs with
    | some (r, rest) => r :: scanF f rest
    | none =>
      match cs with
      | [] => []
      | _ :: t => scanF f t

/-- A `PhonePeTransaction` record of the component. -/
structure Tx where
  date : String
  merchant : String
  type : TxType
  amount : String
deriving DecidableEq, Repr

/-- `parsePhonePeTransactions`: scan the text with the pattern; trim the
date and amount captures and collapse whitespace runs inside the
merchant span. -/
def parsePhonePeTransactions (text : String) : List Tx :=
  (scanF (text.data.length + 1) text.data).map (fun r =>
    ⟨String.mk (trimL r.date), String.mk (trimL (collapseWs r.merchant)),
     r.type, String.mk (trimL r.amount)⟩)

/-- The component's local `parseDate`: just the host date parser plus
ISO formatting. -/
def parseDate (s : String) : Option String :=
  (jsDateParse s.data).map isoFmt

/-- The component's `categorizeTransaction` (merchant text only). -/
def categorizeTransaction (merchant : String) : String :=
  let text := lowerL merchant.data
  if anyKw text ["swiggy", "zomato", "restaurant", "food", "cafe", "hotel",
      "mcdonalds", "starbucks", "dominos"] then "Food"
  else if anyKw text ["uber", "ola", "railway", "flight", "bus", "metro",
      "petrol", "fuel", "parking"] then "Travel"
  else if anyKw text ["amazon", "flipkart", "shopping", "mall", "store",
      "market"] then "Shopping"
  else if anyKw text ["electricity", "water", "gas", "airtel", "jio",
      "bill", "recharge", "mobile"] then "Bills"
  else if anyKw text ["movie", "cinema", "netflix", "spotify", "game",
      "concert"] then "Entertainment"
  else if anyKw text ["pharmacy", "hospital", "doctor", "medical",
      "health"] then "Health"
  else if anyKw text ["course", "book", "education", "training",
      "class"] then "Education"
  else if anyKw text ["investment", "sip", "mutual", "stock", "fd",
      "deposit"] then "Investment"
  else "Miscellaneous"

/-- The per-transaction mapping of `processPhonePePDFClientSide`:
normalize the date (falling back to the raw capture), sign the amount by
direction, build description/category/merchant. -/
def processTransactions (txs : List Tx) : List ProcessedTransaction :=
  txs.map (fun tx =>
    { date := (parseDate tx.date).getD tx.date
      amount :=
        (if tx.type = TxType.DEBIT then ((jsParseFloat tx.amount.data).getD 0).neg
         else (jsParseFloat tx.amount.data).getD 0)
      description := "PhonePe " ++ tx.type.str ++ " to " ++ tx.merchant
      category := categorizeTransaction tx.merchant
      paymentMode := "UPI"
      merchant := tx.merchant })

/-- End-to-end client-side extraction from decoded PDF text. -/
def processPhonePeText (text : String) : List ProcessedTransaction :=
  processTransactions (parsePhonePeTransactions text)

end PhonePe

namespace GPay

/-- The `GPayProcessor` `categorizeTransaction` (merchant text only;
fallback `Other`). -/
def categorizeTransaction (merchant : String) : String :=
  let text := lowerL merchant.data
  if anyKw text ["swiggy", "zomato", "restaurant", "food", "cafe", "hotel",
      "mcdonalds", "starbucks", "dominos"] then "Food"
  else if anyKw text ["uber", "ola", "railway", "flight", "bus", "metro",
      "petrol", "fuel", "parking"] then "Travel"
  else if anyKw text ["amazon", "flipkart", "shopping", "mall", "store",
      "market"] then "Shopping"
  else if anyKw text ["electricity", "water", "gas", "airtel", "jio",
      "bill", "recharge", "mobile"] then "Bills"
  else if anyKw text ["movie", "cinema", "netflix", "spotify", "game",
      "concert"] then "Entertainment"
  else if anyKw text ["pharmacy", "hospital", "doctor", "medical",
      "health"] then "Health"
  else if anyKw text ["course", "book", "education", "training",
      "class"] then "Education"
  else if anyKw text ["investment", "sip", "mutual", "stock", "fd",
      "deposit"] then "Investment"
  else "Other"

end GPay

namespace Paytm

/-- The `PaytmProcessor` `categorizeTransaction` (adds the `skverse`
education keyword; fallback `Other`). -/
def categorizeTransaction (merchant : String) : String :=
  let text := lowerL merchant.data
  if anyKw text ["swiggy", "zomato", "restaurant", "food", "cafe", "hotel",
      "mcdonalds", "starbucks", "dominos"] then "Food"
  else if anyKw text ["uber", "ola", "railway", "flight", "bus", "metro",
      "petrol", "fuel", "parking"] then "Travel"
  else if anyKw text ["amazon", "flipkart", "shopping", "mall", "store",
      "market"] then "Shopping"
  else if anyKw text ["electricity", "water", "gas", "airtel", "jio",
      "bill", "recharge", "mobile"] then "Bills"
  else if anyKw text ["movie", "cinema", "netflix", "spotify", "game",
      "concert"] then "Entertainment"
  else if anyKw text ["pharmacy", "hospital", "doctor", "medical",
      "health"] then "Health"
  else if anyKw text ["course", "book", "education", "training",
      "class", "skverse"] then "Education"
  else if anyKw text ["investment", "sip", "mutual", "stock", "fd",
      "deposit"] then "Investment"
  else "Other"

end Paytm

namespace SuperMoney

/-- The `SuperMoneyProcessor` `categorizeTransaction` (fallback
`Other`). -/
def categorizeTransaction (merchant : String) : String :=
  let text := lowerL merchant.data
  if anyKw text ["swiggy", "zomato", "restaurant", "food", "cafe", "hotel",
      "mcdonalds", "starbucks", "dominos"] then "Food"
  else if anyKw text ["uber", "ola", "railway", "flight", "bus", "metro",
      "petrol", "fuel", "parking"] then "Travel"
  else if anyKw text ["amazon", "flipkart", "shopping", "mall", "store",
      "market"] then "Shopping"
  else if anyKw text ["electricity", "water", "gas", "airtel", "jio",
      "bill", "recharge", "mobile"] then "Bills"
  else if anyKw text ["movie", "cinema", "netflix", "spotify", "game",
      "concert"] then "Entertainment"
  else if anyKw text ["pharmacy", "hospital", "doctor", "medical",
      "health"] then "Health"
  else if anyKw text ["course", "book", "education", "training",
      "class"] then "Education"
  else if anyKw text ["investment", "sip", "mutual", "stock", "fd",
      "deposit"] then "Investment"
  else "Other"

end SuperMoney

namespace FileProcessor

/-! ## `fileProcessor`: the tabular extractors and the router

The external parsing libraries are modelled by their outputs: a CSV file
is carried as the record list `Papa.parse` (with `header: true`)
produces — one association list of header-keyed cells per row — and a
spreadsheet as the row-array list `XLSX.utils.sheet_to_json` (with
`header: 1`) produces.  Cells are carried as strings; a missing key or
short row models the JS `undefined`. -/

/-- A CSV record: header-keyed cells of one row. -/
abbrev CSVRow := List (String × String)

/-- The module's candidate date-column names. -/
def dateColumns : List String := ["date", "dt", "transaction_date", "date_time", "time"]

/-- The module's candidate amount-column names. -/
def amountColumns : List String :=
  ["amount", "amt", "debit", "credit", "transaction_amount", "balance"]

/-- The module's candidate description-column names. -/
def descColumns : List String :=
  ["description", "desc", "narration", "remarks", "particulars", "transaction_details"]

/-- JS property access `row[col]` on a parsed CSV record. -/
def rowGet (row : CSVRow) (k : String) : Option String :=
  (row.find? (fun p => p.1 == k)).map (fun p => p.2)

/-- The column-discovery loop: first candidate whose cell is truthy
(present and non-empty) wins; otherwise the accumulator stays `''`. -/
def findField (row : CSVRow) : List String → String
  | [] => ""
  | k :: ks =>
    match rowGet row k with
    | some v => if v ≠ "" then v else findField row ks
    | none => findField row ks

/-- JS `description.split(' ')[0]` (split on single spaces). -/
def jsSplitFirst (d : String) : String :=
  match splitOnCharL ' ' d.data with
  | [] => ""
  | t :: _ => String.mk t

/-- Truthiness of the parsed amount (`!amount`): `null`, `0` and `-0`
are falsy. -/
def amountTruthy : Option JsNum → Bool
  | none => false
  | some v => v.mant != 0

/-- Build the transaction object pushed for an accepted row. -/
def mkTx (dv : String) (av : JsNum) (desc : String) : ProcessedTransaction :=
  { date := dv
    amount := av
    description := if desc ≠ "" then desc else "Unknown transaction"
    category := categorizeTransaction desc ""
    paymentMode := "UPI"
    merchant := if jsSplitFirst desc ≠ "" then jsSplitFirst desc else "Unknown" }

/-- The raw date token the CSV row loop resolves. -/
def rowDate (row : CSVRow) : String := findField row dateColumns

/-- The raw amount token the CSV row loop resolves. -/
def rowAmount (row : CSVRow) : String := findField row amountColumns

/-- The raw description the CSV row loop resolves. -/
def rowDesc (row : CSVRow) : String := findField row descColumns

/-- The `results.data.forEach` body of `processCSV`, indexed from `i`:
resolve the three fields, parse, record per-row warnings for failed
parses, and push a transaction when both date and amount are truthy.
Nothing in the row body can throw, so `errors` stays empty. -/
def processRowsCSV : Nat → List CSVRow → ProcessingResult
  | _, [] => ⟨[], [], []⟩
  | i, row :: rest =>
    let tail := processRowsCSV (i + 1) rest
    let dateStr := rowDate row
    let amountStr := rowAmount row
    let desc := rowDesc row
    let dateO := parseDate dateStr
    let amtO := parseAmount amountStr
    let dWarn : List String :=
      if dateO = none then
        ["Row " ++ toString (i + 1) ++ ": Could not parse date \"" ++ dateStr ++ "\""]
      else []
    let aWarn : List String :=
      if amountTruthy amtO then []
      else ["Row " ++ toString (i + 1) ++ ": Could not parse amount \"" ++ amountStr ++ "\""]
    let txs : List ProcessedTransaction :=
      match dateO, amtO with
      | some dv, some av => if av.mant ≠ 0 then [mkTx dv av desc] else []
      | _, _ => []
    ⟨txs ++ tail.transactions, tail.errors, dWarn ++ aWarn ++ tail.warnings⟩

/-- `processCSV` on the parsed records. -/
def processCSV (rows : List CSVRow) : ProcessingResult := processRowsCSV 0 rows

/-- `headers.findIndex(h => h && cands.some(c => h.toLowerCase().includes(c)))`. -/
def excelFindIdx (headers : List String) (cands : List String) : Option Nat :=
  headers.findIdx? (fun h => h ≠ "" && cands.any (fun c => containsSub (lowerL h.data) c.data))

/-- `idx >= 0 ? row[idx] : ''` — `none` models the `undefined` a short
row yields. -/
def excelCell (row : List String) (idx : Option Nat) : Option String :=
  match idx with
  | none => some ""
  | some j => row.get? j

/-- Template interpolation of a possibly-undefined cell. -/
def jsShow (o : Option String) : String := o.getD "undefined"

/-- `parseDate` applied to a possibly-undefined cell (the `typeof`
guard maps `undefined` to `null`). -/
def parseDateOpt (o : Option String) : Option String :=
  match o with
  | none => none
  | some s => parseDate s

/-- `parseAmount` applied to a possibly-undefined cell. -/
def parseAmountOpt (o : Option String) : Option JsNum :=
  match o with
  | none => none
  | some s => parseAmount s

/-- The data-row loop of `processExcel`, indexed from `i` (which is `1`
for the first data row, so warnings read `Row 2`).  Empty rows are
skipped silently (`continue`).  When date and amount are accepted but
the description cell is `undefined`, building the object throws in
`description.split` and the row-level catch records the host TypeError
text as an error instead of pushing a transaction. -/
def processRowsExcel : Nat → Option Nat → Option Nat → Option Nat →
    List (List String) → ProcessingResult
  | _, _, _, _, [] => ⟨[], [], []⟩
  | i, dIdx, aIdx, cIdx, row :: rest =>
    let tail := processRowsExcel (i + 1) dIdx aIdx cIdx rest
    if row.isEmpty then tail
    else
      let dateCell := excelCell row dIdx
      let amountCell := excelCell row aIdx
      let descCell := excelCell row cIdx
      let dateO := parseDateOpt dateCell
      let amtO := parseAmountOpt amountCell
      let dWarn : List String :=
        if dateO = none then
          ["Row " ++ toString (i + 1) ++ ": Could not parse date \"" ++ jsShow dateCell ++ "\""]
        else []
      let aWarn : List String :=
        if amountTruthy amtO then []
        else ["Row " ++ toString (i + 1) ++ ": Could not parse amount \"" ++ jsShow amountCell ++ "\""]
      match dateO, amtO with
      | some dv, some av =>
        if av.mant ≠ 0 then
          match descCell with
          | some desc =>
            ⟨mkTx dv av desc :: tail.transactions, tail.errors,
             dWarn ++ aWarn ++ tail.warnings⟩
          | none =>
            ⟨tail.transactions,
             ("Row " ++ toString (i + 1) ++
               ": TypeError: Cannot read properties of undefined (reading 'split')") :: tail.errors,
             dWarn ++ aWarn ++ tail.warnings⟩
        else ⟨tail.transactions, tail.errors, dWarn ++ aWarn ++ tail.warnings⟩
      | _, _ => ⟨tail.transactions, tail.errors, dWarn ++ aWarn ++ tail.warnings⟩

/-- `processExcel` on the first sheet's row arrays: header-or-data size
check, case-insensitive substring column discovery with missing-column
warnings, then the data-row loop. -/
def processExcel (data : List (List String)) : ProcessingResult :=
  if data.length < 2 then
    ⟨[], ["Excel file must have at least a header row and one data row"], []⟩
  else
    let headers := data.headD []
    let dIdx := excelFindIdx headers dateColumns
    let aIdx := excelFindIdx headers amountColumns
    let cIdx := excelFindIdx headers descColumns
    let missing : List String :=
      (if dIdx = none then ["Could not find date column"] else []) ++
      (if aIdx = none then ["Could not find amount column"] else []) ++
      (if cIdx = none then ["Could not find description column"] else [])
    let body := processRowsExcel 1 dIdx aIdx cIdx (data.drop 1)
    ⟨body.transactions, body.errors, missing ++ body.warnings⟩

/-- `processPDF` always resolves to this fixed diagnostic result. -/
def processPDF : ProcessingResult :=
  ⟨[], ["PDF processing requires Python backend setup"],
   ["Please use the dedicated PhonePe Processor or set up the Python backend as described in BACKEND_INTEGRATION.md"]⟩

/-- A raw input file: name, declared media type, and the two parsed
content views the external libraries would produce from its bytes (only
the view the router dispatches to is ever consumed). -/
structure FileInput where
  name : String
  fileType : String
  csvData : List CSVRow
  excelData : List (List String)
deriving DecidableEq, Repr

/-- JS `includes` on strings. -/
def containsS (s sub : String) : Bool := containsSub s.data sub.data

/-- JS `endsWith` on strings. -/
def endsWithS (s sub : String) : Bool := endsWithL s.data sub.data

/-- JS `toLowerCase` on strings. -/
def lowerS (s : String) : String := String.mk (lowerL s.data)

/-- The router's three dispatch conditions, in source order. -/
def isCsvFile (f : FileInput) : Bool :=
  f.fileType == "text/csv" || endsWithS (lowerS f.name) ".csv"

/-- Spreadsheet dispatch condition. -/
def isExcelFile (f : FileInput) : Bool :=
  containsS f.fileType "excel" || containsS f.fileType "spreadsheet" ||
  endsWithS (lowerS f.name) ".xlsx" || endsWithS (lowerS f.name) ".xls"

/-- PDF dispatch condition. -/
def isPdfFile (f : FileInput) : Bool :=
  f.fileType == "application/pdf" || endsWithS (lowerS f.name) ".pdf"

/-- A file some branch of the router accepts. -/
def isSupportedFile (f : FileInput) : Bool :=
  isCsvFile f || isExcelFile f || isPdfFile f

/-- `processFile`: pure dispatch on declared type and (lower-cased)
filename; unsupported files yield an error diagnostic naming the type.
Every branch returns a `ProcessingResult`; the function is total, which
is the model of "never throws". -/
def processFile (f : FileInput) : ProcessingResult :=
  if isCsvFile f then processCSV f.csvData
  else if isExcelFile f then processExcel f.excelData
  else if isPdfFile f then processPDF
  else ⟨[], ["Unsupported file type: " ++ f.fileType], []⟩

/-- The discovered date column of a sheet. -/
def dateIdxOf (data : List (List String)) : Option Nat :=
  excelFindIdx (data.headD []) dateColumns

/-- The discovered amount column of a sheet. -/
def amountIdxOf (data : List (List String)) : Option Nat :=
  excelFindIdx (data.headD []) amountColumns

/-- The discovered description column of a sheet. -/
def descIdxOf (data : List (List String)) : Option Nat :=
  excelFindIdx (data.headD []) descColumns

end FileProcessor

/-- A civil date whose components are in range (a "real calendar
date"). -/
def validCivil (dt : CivilDate) : Prop :=
  1 ≤ dt.month ∧ dt.month ≤ 12 ∧ 1 ≤ dt.day ∧ dt.day ≤ monthLen dt.year dt.month

/-- A string that is the ISO rendering of a real calendar date. -/
def isValidIsoDate (s : String) : Prop :=
  ∃ dt : CivilDate, validCivil dt ∧ s = isoFmt dt

/-- A day/month/year rendered in the `dd/MM/yyyy` input format. -/
def fmtDMY (d m y : Nat) : String :=
  String.mk (padTo 2 d ++ '/' :: (padTo 2 m ++ '/' :: padTo 4 y))

/-- The ISO `yyyy-mm-dd` rendering of a day/month/year. -/
def fmtISO (y m d : Nat) : String :=
  String.mk (padTo 4 y ++ '-' :: (padTo 2 m ++ '-' :: padTo 2 d))

/-- The fixed category enumeration of the specification. -/
def specCategories : List String :=
  ["Food", "Travel", "Shopping", "Bills", "Entertainment", "Health",
   "Education", "Investment", "Miscellaneous"]

/-! # Helper lemmas

Every date a successful `parseDate` returns is the ISO rendering of a
real calendar date: the `jsMakeDate` normalization always lands on
in-range components. -/

/-- Every month is at least 28 days long. -/
lemma monthLen_ge (y m : Int) : 28 ≤ monthLen y m := by
  unfold monthLen
  split_ifs <;> omega

/-- Forward day-rollover lands on in-range components whenever the fuel
exceeds the day count. -/
lemma normUpF_valid : ∀ (f : Nat) (y m d : Int), d.toNat < f →
    1 ≤ m → m ≤ 12 → 1 ≤ d → validCivil (normUpF f y m d) := by
  intro f
  induction f with
  | zero => intro y m d hf _ _ hd; omega
  | succ f ih =>
    intro y m d hf hm1 hm2 hd
    rw [normUpF]
    by_cases h : monthLen y m < d
    · rw [if_pos h]
      have h28 := monthLen_ge y m
      apply ih
      · omega
      · split_ifs <;> omega
      · split_ifs <;> omega
      · omega
    · rw [if_neg h]
      simp only [validCivil]
      exact ⟨hm1, hm2, hd, by omega⟩

/-- Backward day-rollover lands on in-range components whenever the fuel
exceeds the day deficit. -/
lemma normDownF_valid : ∀ (f : Nat) (y m d : Int), (1 - d).toNat < f →
    1 ≤ m → m ≤ 12 → d ≤ monthLen y m → validCivil (normDownF f y m d) := by
  intro f
  induction f with
  | zero => intro y m d hf _ _ _; omega
  | succ f ih =>
    intro y m d hf hm1 hm2 hd
    rw [normDownF]
    by_cases h : d < 1
    · rw [if_pos h]
      have h28 := monthLen_ge (if m = 1 then y - 1 else y) (if m = 1 then 12 else m - 1)
      apply ih
      · omega
      · split_ifs <;> omega
      · split_ifs <;> omega
      · omega
    · rw [if_neg h]
      simp only [validCivil]
      exact ⟨hm1, hm2, by omega, hd⟩

/-- Every date `jsMakeDate` accepts has in-range components. -/
lemma jsMakeDate_valid (y m0 d : Int) (dt : CivilDate) :
    jsMakeDate y m0 d = some dt → validCivil dt := by
  unfold jsMakeDate
  dsimp only
  intro h
  have hm1 : 0 ≤ Int.emod m0 12 := Int.emod_nonneg m0 (by norm_num)
  have hm2 : Int.emod m0 12 < 12 := Int.emod_lt_of_pos m0 (by norm_num)
  generalize hy2 : (if 0 ≤ y ∧ y ≤ 99 then 1900 + y else y) + Int.ediv m0 12 = y2 at h
  by_cases hd : d < 1
  · rw [if_pos hd] at h
    split_ifs at h with hr
    simp only [Option.some.injEq] at h
    subst h
    have h28 := monthLen_ge y2 (Int.emod m0 12 + 1)
    apply normDownF_valid <;> omega
  · rw [if_neg hd] at h
    split_ifs at h with hr
    simp only [Option.some.injEq] at h
    subst h
    apply normUpF_valid <;> omega

/-- Every date the host-parser model returns has in-range components. -/
lemma jsDateParse_valid (cs : List Char) (dt : CivilDate) :
    jsDateParse cs = some dt → validCivil dt := by
  unfold jsDateParse
  intro h
  split at h
  · exact absurd h (by simp)
  · split at h
    · exact jsMakeDate_valid _ _ _ _ h
    · exact absurd h (by simp)

/-- Every date a format-loop iteration accepts has in-range
components. -/
lemma tryFormatParts_valid (ord : FieldOrder) (parts : List (List Char))
    (dt : CivilDate) : tryFormatParts ord parts = some dt → validCivil dt := by
  unfold tryFormatParts
  intro h
  split at h
  · dsimp only at h
    split at h
    · split at h
      · rename_i hmk
        split_ifs at h
        simp only [Option.some.injEq] at h
        subst h
        exact jsMakeDate_valid _ _ _ _ hmk
      · exact absurd h (by simp)
    · exact absurd h (by simp)
  · exact absurd h (by simp)

/-- Every date the fileProcessor `parseDate` returns is the ISO
rendering of a real calendar date. -/
lemma parseDateCore_valid (cs : List Char) (out : List Char) :
    FileProcessor.parseDateCore cs = some out →
    ∃ dt : CivilDate, validCivil dt ∧ out = isoFmtC dt := by
  unfold FileProcessor.parseDateCore
  dsimp only
  intro h
  split_ifs at h
  split at h
  · rename_i dt hfind
    obtain ⟨f, _, hf⟩ := List.exists_of_findSome?_eq_some hfind
    simp only [Option.some.injEq] at h
    exact ⟨dt, tryFormatParts_valid _ _ _ hf, h.symm⟩
  · split at h
    · rename_i dt hparse
      simp only [Option.some.injEq] at h
      exact ⟨dt, jsDateParse_valid _ _ hparse, h.symm⟩
    · exact absurd h (by simp)

/-- String-level corollary: a parsed date is a valid ISO date. -/
lemma parseDate_valid (s : String) (out : String) :
    FileProcessor.parseDate s = some out → isValidIsoDate out := by
  unfold FileProcessor.parseDate
  intro h
  simp only [Option.map_eq_some'] at h
  obtain ⟨cs, hcs, hout⟩ := h
  obtain ⟨dt, hv, he⟩ := parseDateCore_valid _ _ hcs
  exact ⟨dt, hv, by rw [← hout, he, isoFmt]⟩

/-- Characterization of the transactions `processRowsCSV` emits: each
comes from a row whose date parsed and whose amount parsed non-zero, and
is exactly the object `mkTx` builds from that row's resolved fields. -/
lemma processRowsCSV_mem :
    ∀ (rows : List FileProcessor.CSVRow) (i : Nat) (tx : ProcessedTransaction),
    tx ∈ (FileProcessor.processRowsCSV i rows).transactions →
    ∃ j row, rows.get? j = some row ∧
      ∃ dv av, FileProcessor.parseDate (FileProcessor.rowDate row) = some dv ∧
        FileProcessor.parseAmount (FileProcessor.rowAmount row) = some av ∧
        av.mant ≠ 0 ∧ tx = FileProcessor.mkTx dv av (FileProcessor.rowDesc row) := by
  intro rows
  induction rows with
  | nil =>
    intro i tx h
    simp [FileProcessor.processRowsCSV] at h
  | cons row rest ih =>
    intro i tx h
    rw [FileProcessor.processRowsCSV] at h
    dsimp only at h
    rw [List.mem_append] at h
    rcases h with h | h
    · refine ⟨0, row, rfl, ?_⟩
      split at h
      · rename_i dv av hdv hav
        split_ifs at h with hz
        · simp only [List.mem_singleton] at h
          exact ⟨dv, av, hdv, hav, hz, h⟩
        · simp at h
      · simp at h
    · obtain ⟨j, row2, hj, rest2⟩ := ih (i + 1) tx h
      exact ⟨j + 1, row2, by simpa using hj, rest2⟩

/-- Parse-failure warnings `processRowsCSV` records: a row whose date
fails to parse, or whose amount is null or zero, contributes a warning
carrying the (1-based) row index and the raw offending token. -/
lemma processRowsCSV_warn :
    ∀ (rows : List FileProcessor.CSVRow) (i j : Nat) (row : FileProcessor.CSVRow),
    rows.get? j = some row →
    ((FileProcessor.parseDate (FileProcessor.rowDate row) = none →
      ("Row " ++ toString (i + j + 1) ++ ": Could not parse date \"" ++
        FileProcessor.rowDate row ++ "\"") ∈
        (FileProcessor.processRowsCSV i rows).warnings) ∧
     (FileProcessor.amountTruthy
        (FileProcessor.parseAmount (FileProcessor.rowAmount row)) = false →
      ("Row " ++ toString (i + j + 1) ++ ": Could not parse amount \"" ++
        FileProcessor.rowAmount row ++ "\"") ∈
        (FileProcessor.processRowsCSV i rows).warnings)) := by
  intro rows
  induction rows with
  | nil =>
    intro i j row h
    simp at h
  | cons r rest ih =>
    intro i j row h
    rw [FileProcessor.processRowsCSV]
    dsimp only
    cases j with
    | zero =>
      simp only [List.get?_cons_zero, Option.some.injEq] at h
      subst h
      constructor
      · intro hd
        simp [hd, List.mem_append]
      · intro ha
        simp [ha, List.mem_append]
    | succ j2 =>
      simp only [List.get?_cons_succ] at h
      have e : i + (j2 + 1) + 1 = (i + 1) + j2 + 1 := by omega
      rw [e]
      constructor
      · intro hd
        simp only [List.mem_append]
        exact Or.inr ((ih (i + 1) j2 row h).1 hd)
      · intro ha
        simp only [List.mem_append]
        exact Or.inr ((ih (i + 1) j2 row h).2 ha)

/-- Characterization of the transactions the Excel data-row loop emits:
each comes from a non-empty row whose date cell parsed, whose amount
cell parsed non-zero, and whose description cell is present, and is
exactly the object `mkTx` builds from those cells. -/
lemma processRowsExcel_mem :
    ∀ (data : List (List String)) (i : Nat) (dIdx aIdx cIdx : Option Nat)
      (tx : ProcessedTransaction),
    tx ∈ (FileProcessor.processRowsExcel i dIdx aIdx cIdx data).transactions →
    ∃ j row desc, data.get? j = some row ∧ row ≠ [] ∧
      ∃ dv av, FileProcessor.parseDateOpt (FileProcessor.excelCell row dIdx) = some dv ∧
        FileProcessor.parseAmountOpt (FileProcessor.excelCell row aIdx) = some av ∧
        av.mant ≠ 0 ∧ FileProcessor.excelCell row cIdx = some desc ∧
        tx = FileProcessor.mkTx dv av desc := by
  intro data
  induction data with
  | nil =>
    intro i dIdx aIdx cIdx tx h
    simp [FileProcessor.processRowsExcel] at h
  | cons row rest ih =>
    intro i dIdx aIdx cIdx tx h
    rw [FileProcessor.processRowsExcel] at h
    dsimp only at h
    have tailCase :
        tx ∈ (FileProcessor.processRowsExcel (i + 1) dIdx aIdx cIdx rest).transactions →
        ∃ j row2 desc, (row :: rest).get? j = some row2 ∧ row2 ≠ [] ∧
          ∃ dv av, FileProcessor.parseDateOpt (FileProcessor.excelCell row2 dIdx) = some dv ∧
            FileProcessor.parseAmountOpt (FileProcessor.excelCell row2 aIdx) = some av ∧
            av.mant ≠ 0 ∧ FileProcessor.excelCell row2 cIdx = some desc ∧
            tx = FileProcessor.mkTx dv av desc := by
      intro hh
      obtain ⟨j, row2, desc, hj, hp⟩ := ih (i + 1) dIdx aIdx cIdx tx hh
      exact ⟨j + 1, row2, desc, by simpa using hj, hp⟩
    by_cases hemp : row.isEmpty
    · rw [if_pos hemp] at h
      exact tailCase h
    · rw [if_neg hemp] at h
      split at h
      · rename_i dv av hdv hav
        by_cases hz : av.mant ≠ 0
        · rw [if_pos hz] at h
          rcases hdesc : FileProcessor.excelCell row cIdx with _ | desc
          · rw [hdesc] at h
            try dsimp only at h
            exact tailCase h
          · rw [hdesc] at h
            try dsimp only at h
            rcases List.mem_cons.mp h with h | h
            · exact ⟨0, row, desc, rfl, by simpa using hemp,
                dv, av, hdv, hav, hz, hdesc, h⟩
            · exact tailCase h
        · rw [if_neg hz] at h
          dsimp only at h
          exact tailCase h
      · dsimp only at h
        exact tailCase h

/-- The warnings of every branch of the Excel row body extend the tail's
warnings by the current row's parse-failure warnings. -/
lemma processRowsExcel_warn_shape (i : Nat) (dIdx aIdx cIdx : Option Nat)
    (row : List String) (rest : List (List String)) (hemp : row.isEmpty = false) :
    (FileProcessor.processRowsExcel i dIdx aIdx cIdx (row :: rest)).warnings =
      ((if FileProcessor.parseDateOpt (FileProcessor.excelCell row dIdx) = none then
        ["Row " ++ toString (i + 1) ++ ": Could not parse date \"" ++
          FileProcessor.jsShow (FileProcessor.excelCell row dIdx) ++ "\""] else []) ++
      (if FileProcessor.amountTruthy
            (FileProcessor.parseAmountOpt (FileProcessor.excelCell row aIdx)) = true then []
        else
          ["Row " ++ toString (i + 1) ++ ": Could not parse amount \"" ++
            FileProcessor.jsShow (FileProcessor.excelCell row aIdx) ++ "\""])) ++
        (FileProcessor.processRowsExcel (i + 1) dIdx aIdx cIdx rest).warnings := by
  rw [FileProcessor.processRowsExcel]
  dsimp only
  rw [if_neg (by simp [hemp])]
  split
  · rename_i dv av hdv hav
    by_cases hz : av.mant ≠ 0
    · rw [if_pos hz]
      rcases hdesc : FileProcessor.excelCell row cIdx with _ | desc
      · rfl
      · rfl
    · rw [if_neg hz]
  · rfl

/-- Parse-failure warnings the Excel data-row loop records for non-empty
rows, carrying the (1-based) sheet row index and the raw cell text. -/
lemma processRowsExcel_warn :
    ∀ (data : List (List String)) (i : Nat) (dIdx aIdx cIdx : Option Nat)
      (j : Nat) (row : List String),
    data.get? j = some row → row.isEmpty = false →
    ((FileProcessor.parseDateOpt (FileProcessor.excelCell row dIdx) = none →
      ("Row " ++ toString (i + j + 1) ++ ": Could not parse date \"" ++
        FileProcessor.jsShow (FileProcessor.excelCell row dIdx) ++ "\"") ∈
        (FileProcessor.processRowsExcel i dIdx aIdx cIdx data).warnings) ∧
     (FileProcessor.amountTruthy
        (FileProcessor.parseAmountOpt (FileProcessor.excelCell row aIdx)) = false →
      ("Row " ++ toString (i + j + 1) ++ ": Could not parse amount \"" ++
        FileProcessor.jsShow (FileProcessor.excelCell row aIdx) ++ "\"") ∈
        (FileProcessor.processRowsExcel i dIdx aIdx cIdx data).warnings)) := by
  intro data
  induction data with
  | nil =>
    intro i dIdx aIdx cIdx j row h
    simp at h
  | cons r rest ih =>
    intro i dIdx aIdx cIdx j row h hne
    cases j with
    | zero =>
      simp only [List.get?_cons_zero, Option.some.injEq] at h
      subst h
      rw [processRowsExcel_warn_shape i dIdx aIdx cIdx r rest hne]
      constructor
      · intro hd
        simp [hd, List.mem_append]
      · intro ha
        simp [ha, List.mem_append]
    | succ j2 =>
      simp only [List.get?_cons_succ] at h
      have e : i + (j2 + 1) + 1 = (i + 1) + j2 + 1 := by omega
      have hw := ih (i + 1) dIdx aIdx cIdx j2 row h hne
      by_cases hemp : r.isEmpty
      · rw [FileProcessor.processRowsExcel]
        dsimp only
        rw [if_pos hemp, e]
        exact hw
      · rw [processRowsExcel_warn_shape i dIdx aIdx cIdx r rest (by simpa using hemp), e]
        constructor
        · intro hd
          simp only [List.mem_append]
          exact Or.inr (hw.1 hd)
        · intro ha
          simp only [List.mem_append]
          exact Or.inr (hw.2 ha)

/-! ## Decimal-rendering round-trip lemmas (for the date round-trip) -/

/-- Rendered digits are digit characters. -/
lemma digitChar_isDigit (n : Nat) : isDigitChar (digitChar n) = true := by
  unfold digitChar
  split <;> decide

/-- Rendering then reading one digit is the identity below 10. -/
lemma digitVal_digitChar (n : Nat) (h : n < 10) : digitVal (digitChar n) = n := by
  interval_cases n <;> decide

/-- A digit character differs from any non-digit character. -/
lemma digit_beq_ne (x : Char) {c : Char} (h : isDigitChar c = true)
    (hx : isDigitChar x = false) : (c == x) = false := by
  by_contra hb
  rw [Bool.not_eq_false, beq_iff_eq] at hb
  subst hb
  rw [h] at hx
  cases hx

/-- A digit character is distinct from any non-digit character. -/
lemma digit_ne (x : Char) {c : Char} (h : isDigitChar c = true)
    (hx : isDigitChar x = false) : c ≠ x := by
  intro e
  subst e
  rw [h] at hx
  cases hx

/-- Digit characters are not whitespace. -/
lemma digit_not_ws {c : Char} (h : isDigitChar c = true) : isWsChar c = false := by
  unfold isWsChar
  rw [digit_beq_ne ' ' h (by decide), digit_beq_ne '\t' h (by decide),
    digit_beq_ne '\n' h (by decide), digit_beq_ne '\r' h (by decide),
    digit_beq_ne '\x0b' h (by decide), digit_beq_ne '\x0c' h (by decide)]
  rfl

/-- Lower-casing keeps digit characters unchanged. -/
lemma toLowerChar_digit {c : Char} (h : isDigitChar c = true) :
    toLowerChar c = c := by
  unfold toLowerChar
  rw [if_neg]
  simp only [isDigitChar, Bool.and_eq_true, decide_eq_true_eq] at h
  intro hc
  rw [Bool.and_eq_true, decide_eq_true_eq, decide_eq_true_eq] at hc
  exact absurd (le_trans hc.1 h.2) (by decide)

/-- The separator normalization keeps digit characters unchanged. -/
lemma normSep_digit {c : Char} (h : isDigitChar c = true) : normSep c = c := by
  unfold normSep
  rw [if_neg]
  rintro (e | e | e) <;> exact digit_ne _ h (by decide) e

/-- Reading digits distributes over append. -/
lemma natOfDigitsAux_append (xs ys : List Char) :
    ∀ acc, natOfDigitsAux acc (xs ++ ys) = natOfDigitsAux (natOfDigitsAux acc xs) ys := by
  induction xs with
  | nil => intro acc; rfl
  | cons c cs ih => intro acc; exact ih _

/-- The digit-rendering accumulator is an append. -/
lemma natDigitsAux_acc (f : Nat) :
    ∀ (n : Nat) (acc : List Char), natDigitsAux f n acc = natDigitsAux f n [] ++ acc := by
  induction f with
  | zero => intro n acc; rfl
  | succ f ih =>
    intro n acc
    rw [natDigitsAux, natDigitsAux]
    by_cases h : n < 10
    · rw [if_pos h, if_pos h]
      rfl
    · rw [if_neg h, if_neg h, ih (n / 10) (digitChar (n % 10) :: acc),
        ih (n / 10) [digitChar (n % 10)], List.append_assoc]
      rfl

/-- The rendering is independent of the fuel once it covers the value. -/
lemma natDigitsAux_fuel :
    ∀ (n f g : Nat), n ≤ f → n ≤ g → natDigitsAux f n [] = natDigitsAux g n [] := by
  intro n
  induction n using Nat.strong_induction_on with
  | _ n ih =>
    intro f g hf hg
    match f, g with
    | 0, 0 => rfl
    | 0, g + 1 =>
      have : n = 0 := by omega
      subst this
      rw [natDigitsAux, natDigitsAux, if_pos (by omega)]
    | f + 1, 0 =>
      have : n = 0 := by omega
      subst this
      rw [natDigitsAux, natDigitsAux, if_pos (by omega)]
    | f + 1, g + 1 =>
      rw [natDigitsAux, natDigitsAux]
      by_cases h : n < 10
      · rw [if_pos h, if_pos h]
      · rw [if_neg h, if_neg h, natDigitsAux_acc f, natDigitsAux_acc g,
          ih (n / 10) (by omega) f g (by omega) (by omega)]

/-- Rendering a value below ten gives its single digit. -/
lemma natToChars_small (n : Nat) (h : n < 10) : natToChars n = [digitChar n] := by
  unfold natToChars
  match n, h with
  | 0, _ => rfl
  | n + 1, h =>
    rw [natDigitsAux, if_pos h]

/-- Rendering peels the last digit above ten. -/
lemma natToChars_step (n : Nat) (h : 10 ≤ n) :
    natToChars n = natToChars (n / 10) ++ [digitChar (n % 10)] := by
  obtain ⟨f, rfl⟩ : ∃ f, n = f + 1 := ⟨n - 1, by omega⟩
  unfold natToChars
  rw [natDigitsAux, if_neg (by omega), natDigitsAux_acc,
    natDigitsAux_fuel ((f + 1) / 10) f ((f + 1) / 10) (by omega) le_rfl]

/-- Reading back a rendered value is the identity. -/
lemma natToChars_val : ∀ n : Nat, natOfDigitsAux 0 (natToChars n) = n := by
  intro n
  induction n using Nat.strong_induction_on with
  | _ n ih =>
    by_cases h : n < 10
    · rw [natToChars_small n h]
      show 0 * 10 + digitVal (digitChar n) = n
      rw [digitVal_digitChar n h]
      omega
    · rw [natToChars_step n (by omega), natOfDigitsAux_append,
        ih (n / 10) (by omega)]
      show (n / 10) * 10 + digitVal (digitChar (n % 10)) = n
      rw [digitVal_digitChar (n % 10) (by omega)]
      omega

/-- Rendered values consist of digit characters only. -/
lemma natToChars_digits : ∀ (n : Nat) (c : Char), c ∈ natToChars n →
    isDigitChar c = true := by
  intro n
  induction n using Nat.strong_induction_on with
  | _ n ih =>
    intro c hc
    by_cases h : n < 10
    · rw [natToChars_small n h] at hc
      rcases List.mem_singleton.mp hc with rfl
      exact digitChar_isDigit n
    · rw [natToChars_step n (by omega)] at hc
      rcases List.mem_append.mp hc with hc | hc
      · exact ih (n / 10) (by omega) c hc
      · rcases List.mem_singleton.mp hc with rfl
        exact digitChar_isDigit _

/-- Renderings of values below `10 ^ w` are at most `w` characters. -/
lemma natToChars_len_le : ∀ (n w : Nat), 1 ≤ w → n < 10 ^ w →
    (natToChars n).length ≤ w := by
  intro n
  induction n using Nat.strong_induction_on with
  | _ n ih =>
    intro w hw hn
    by_cases h : n < 10
    · rw [natToChars_small n h]
      simpa using hw
    · have hw2 : 2 ≤ w := by
        by_contra hc
        have : w = 1 := by omega
        subst this
        simp at hn
        omega
      rw [natToChars_step n (by omega), List.length_append]
      have : n / 10 < 10 ^ (w - 1) := by
        have e : 10 ^ w = 10 * 10 ^ (w - 1) := by
          calc 10 ^ w = 10 ^ (1 + (w - 1)) := by congr 1; omega
          _ = 10 * 10 ^ (w - 1) := by rw [pow_add, pow_one]
        apply Nat.div_lt_of_lt_mul
        omega
      have := ih (n / 10) (by omega) (w - 1) (by omega) this
      simp only [List.length_singleton]
      omega

/-- Padded renderings consist of digit characters only. -/
lemma padTo_digits (w n : Nat) (c : Char) (hc : c ∈ padTo w n) :
    isDigitChar c = true := by
  unfold padTo at hc
  rcases List.mem_append.mp hc with hc | hc
  · rcases List.eq_of_mem_replicate hc with rfl
    decide
  · exact natToChars_digits n c hc

/-- Length of a padded rendering of an in-range value. -/
lemma padTo_length (w n : Nat) (hw : 1 ≤ w) (hn : n < 10 ^ w) :
    (padTo w n).length = w := by
  unfold padTo
  rw [List.length_append, List.length_replicate]
  have := natToChars_len_le n w hw hn
  omega

/-- A padded rendering is never empty. -/
lemma padTo_ne_nil (w n : Nat) (hw : 1 ≤ w) (hn : n < 10 ^ w) :
    padTo w n ≠ [] := by
  intro h
  have := padTo_length w n hw hn
  rw [h] at this
  simp at this
  omega

/-- Reading back a padded rendering is the identity. -/
lemma natOfDigitsAux_padTo (w n : Nat) :
    natOfDigitsAux 0 (padTo w n) = n := by
  unfold padTo
  rw [natOfDigitsAux_append]
  have hz : ∀ k, natOfDigitsAux 0 (List.replicate k '0') = 0 := by
    intro k
    induction k with
    | zero => rfl
    | succ k ih =>
      rw [List.replicate_succ]
      show natOfDigitsAux (0 * 10 + digitVal '0') (List.replicate k '0') = 0
      have h0 : 0 * 10 + digitVal '0' = 0 := by decide
      rw [h0, ih]
  rw [hz, natToChars_val]

/-- `takeWhile` keeps a list all of whose elements satisfy the
predicate. -/
lemma takeWhile_all (p : Char → Bool) :
    ∀ cs : List Char, (∀ c ∈ cs, p c = true) → cs.takeWhile p = cs := by
  intro cs
  induction cs with
  | nil => intro _; rfl
  | cons c rest ih =>
    intro h
    rw [List.takeWhile_cons, h c (List.mem_cons_self c rest), if_pos rfl,
      ih (fun x hx => h x (List.mem_cons_of_mem c hx))]

/-- `dropWhile` fixes a list none of whose elements satisfy the
predicate. -/
lemma dropWhile_all (p : Char → Bool) :
    ∀ cs : List Char, (∀ c ∈ cs, p c = false) → cs.dropWhile p = cs := by
  intro cs
  induction cs with
  | nil => intro _; rfl
  | cons c rest ih =>
    intro h
    rw [List.dropWhile_cons, h c (List.mem_cons_self c rest),
      if_neg (by decide)]

/-- `trimL` fixes a whitespace-free list. -/
lemma trimL_all (cs : List Char) (h : ∀ c ∈ cs, isWsChar c = false) :
    trimL cs = cs := by
  unfold trimL
  rw [dropWhile_all _ cs h, dropWhile_all _ cs.reverse
    (fun c hc => h c (List.mem_reverse.mp hc)), List.reverse_reverse]

/-- `jsParseInt` reads back a padded rendering. -/
lemma jsParseInt_padTo (w n : Nat) (hw : 1 ≤ w) (hn : n < 10 ^ w) :
    jsParseInt (padTo w n) = some (n : Int) := by
  unfold jsParseInt
  obtain ⟨a, as, ha⟩ := List.exists_cons_of_ne_nil (padTo_ne_nil w n hw hn)
  have hdigits : ∀ c ∈ padTo w n, isDigitChar c = true := padTo_digits w n
  have hda : isDigitChar a = true := hdigits a (ha ▸ List.mem_cons_self a as)
  rw [dropWhile_all _ _ (fun c hc => digit_not_ws (hdigits c hc))]
  rw [ha]
  dsimp only
  rw [digit_beq_ne '-' hda (by decide), digit_beq_ne '+' hda (by decide)]
  have hff : ¬((false || false) = true) := by decide
  rw [if_neg hff]
  rw [← ha, takeWhile_all _ _ hdigits]
  have hne : ¬((padTo w n).isEmpty = true) := by simp [ha]
  rw [if_neg hne]
  rw [natOfDigitsAux_padTo]
  rfl

/-- Symmetric form of `digit_beq_ne`. -/
lemma beq_digit_ne (x : Char) {c : Char} (h : isDigitChar c = true)
    (hx : isDigitChar x = false) : (x == c) = false := by
  by_contra hb
  rw [Bool.not_eq_false, beq_iff_eq] at hb
  subst hb
  rw [h] at hx
  cases hx

/-- A map whose function fixes every element is the identity. -/
lemma map_id_of (f : Char → Char) :
    ∀ cs : List Char, (∀ c ∈ cs, f c = c) → cs.map f = cs := by
  intro cs
  induction cs with
  | nil => intro _; rfl
  | cons c rest ih =>
    intro h
    rw [List.map_cons, h c (List.mem_cons_self c rest),
      ih (fun x hx => h x (List.mem_cons_of_mem c hx))]

/-- Splitting a separator-free list yields that single part. -/
lemma splitOnCharL_no_sep (sep : Char) :
    ∀ cs : List Char, (∀ c ∈ cs, (c == sep) = false) →
      splitOnCharL sep cs = [cs] := by
  intro cs
  induction cs with
  | nil => intro _; rfl
  | cons c rest ih =>
    intro h
    rw [splitOnCharL, h c (List.mem_cons_self c rest),
      ih (fun x hx => h x (List.mem_cons_of_mem c hx))]
    rfl

/-- Splitting peels a separator-free first segment. -/
lemma splitOnCharL_append_sep (sep : Char) (l2 : List Char) :
    ∀ l1 : List Char, (∀ c ∈ l1, (c == sep) = false) →
      splitOnCharL sep (l1 ++ sep :: l2) = l1 :: splitOnCharL sep l2 := by
  intro l1
  induction l1 with
  | nil =>
    intro _
    rw [List.nil_append, splitOnCharL, beq_self_eq_true]
    rfl
  | cons c rest ih =>
    intro h
    rw [List.cons_append, splitOnCharL, h c (List.mem_cons_self c rest),
      ih (fun x hx => h x (List.mem_cons_of_mem c hx))]
    rfl

/-- The `Date:`-prefix stripper fixes a token starting with a digit. -/
lemma stripDatePre_digit {c : Char} (rest : List Char)
    (h : isDigitChar c = true) : stripDatePre (c :: rest) = c :: rest := by
  unfold stripDatePre
  have hlow : lowerL (c :: rest) = c :: lowerL rest := by
    dsimp only [lowerL, List.map]
    rw [toLowerChar_digit h]
  dsimp only
  rw [hlow]
  have h1 : prefixAt "date:".data (c :: lowerL rest) = false := by
    show (('d' == c) && _) = false
    rw [beq_digit_ne 'd' h (by decide)]
    rfl
  have h2 : prefixAt "dt:".data (c :: lowerL rest) = false := by
    show (('d' == c) && _) = false
    rw [beq_digit_ne 'd' h (by decide)]
    rfl
  have h3 : prefixAt "d:".data (c :: lowerL rest) = false := by
    show (('d' == c) && _) = false
    rw [beq_digit_ne 'd' h (by decide)]
    rfl
  rw [h1, h2, h3]
  rfl

/-- No month is longer than 31 days. -/
lemma monthLen_le_31 (y m : Int) : monthLen y m ≤ 31 := by
  unfold monthLen
  split_ifs <;> omega

/-- On in-range components `new Date(y, m-1, d)` performs no remapping,
no carrying and no rollover: it returns exactly the given date. -/
lemma jsMakeDate_of_valid (y m d : Int) (hy1 : 100 ≤ y) (hy2 : y ≤ 9999)
    (hm1 : 1 ≤ m) (hm2 : m ≤ 12) (hd1 : 1 ≤ d) (hd2 : d ≤ monthLen y m) :
    jsMakeDate y (m - 1) d = some ⟨y, m, d⟩ := by
  unfold jsMakeDate
  dsimp only
  have hremap : (if 0 ≤ y ∧ y ≤ 99 then 1900 + y else y) = y := by
    rw [if_neg (by omega)]
  rw [hremap]
  have he : Int.ediv (m - 1) 12 = 0 := Int.ediv_eq_zero_of_lt (by omega) (by omega)
  have hem : Int.emod (m - 1) 12 = m - 1 := Int.emod_eq_of_lt (by omega) (by omega)
  rw [he, hem]
  have hy0 : y + 0 = y := by omega
  have hm0 : m - 1 + 1 = m := by omega
  rw [hy0, hm0]
  have hdn : (if d < 1 then normDownF ((1 - d).toNat + 1) y m d
      else normUpF (d.toNat + 1) y m d) = normUpF (d.toNat + 1) y m d := by
    rw [if_neg (by omega)]
  rw [hdn]
  have hup : normUpF (d.toNat + 1) y m d = ⟨y, m, d⟩ := by
    rw [normUpF, if_neg (by omega)]
  rw [hup]
  dsimp only
  rw [if_neg (by omega)]

/-- The two-digit-year fixup leaves a four-digit year unchanged. -/
lemma fixY2_len4 (ys : List Char) (h : ys.length = 4) : fixY2 ys = ys := by
  unfold fixY2
  rw [if_neg (by omega)]

/-- The `dd/MM/yyyy` format entry accepts a zero-padded valid date and
reconstructs its components exactly. -/
lemma tryFormatParts_dmy (y m d : Nat) (hy1 : 100 ≤ y) (hy2 : y ≤ 9999)
    (hm1 : 1 ≤ m) (hm2 : m ≤ 12) (hd1 : 1 ≤ d)
    (hd2 : (d : Int) ≤ monthLen (y : Int) (m : Int)) :
    tryFormatParts .dmy [padTo 2 d, padTo 2 m, padTo 4 y] =
      some ⟨(y : Int), (m : Int), (d : Int)⟩ := by
  have hd31 : d < 100 := by
    have h31 := monthLen_le_31 (y : Int) (m : Int)
    omega
  unfold tryFormatParts
  dsimp only
  rw [fixY2_len4 _ (padTo_length 4 y (by omega) (by omega))]
  rw [jsParseInt_padTo 4 y (by omega) (by omega),
    jsParseInt_padTo 2 m (by omega) (by omega),
    jsParseInt_padTo 2 d (by omega) (by omega)]
  dsimp only
  rw [jsMakeDate_of_valid (y : Int) (m : Int) (d : Int) (by omega) (by omega)
    (by omega) (by omega) (by omega) hd2]
  dsimp only
  rw [if_pos rfl]

/-- The fileProcessor `parseDateCore` on a zero-padded `dd/MM/yyyy`
rendering of a valid date returns its ISO rendering. -/
lemma parseDateCore_fmtDMY (y m d : Nat) (hy1 : 100 ≤ y) (hy2 : y ≤ 9999)
    (hm1 : 1 ≤ m) (hm2 : m ≤ 12) (hd1 : 1 ≤ d)
    (hd2 : (d : Int) ≤ monthLen (y : Int) (m : Int)) :
    FileProcessor.parseDateCore
        (padTo 2 d ++ '/' :: (padTo 2 m ++ '/' :: padTo 4 y)) =
      some (padTo 4 y ++ '-' :: (padTo 2 m ++ '-' :: padTo 2 d)) := by
  have hmem : ∀ c ∈ (padTo 2 d ++ '/' :: (padTo 2 m ++ '/' :: padTo 4 y)),
      isDigitChar c = true ∨ c = '/' := by
    intro c hc
    simp only [List.mem_append, List.mem_cons] at hc
    rcases hc with h | h | h | h | h
    · exact Or.inl (padTo_digits 2 d c h)
    · exact Or.inr h
    · exact Or.inl (padTo_digits 2 m c h)
    · exact Or.inr h
    · exact Or.inl (padTo_digits 4 y c h)
  obtain ⟨a, as, ha⟩ := List.exists_cons_of_ne_nil (padTo_ne_nil 2 d (by omega)
    (by have h31 := monthLen_le_31 (y : Int) (m : Int); omega))
  have hda : isDigitChar a = true :=
    padTo_digits 2 d a (ha ▸ List.mem_cons_self a as)
  unfold FileProcessor.parseDateCore
  dsimp only
  rw [if_neg (by simp)]
  rw [trimL_all _ (by
    intro c hc
    rcases hmem c hc with h | rfl
    · exact digit_not_ws h
    · decide)]
  have hstrip : stripDatePre (padTo 2 d ++ '/' :: (padTo 2 m ++ '/' :: padTo 4 y)) =
      padTo 2 d ++ '/' :: (padTo 2 m ++ '/' :: padTo 4 y) := by
    rw [ha, List.cons_append, stripDatePre_digit _ hda, ← List.cons_append, ← ha]
  rw [hstrip]
  rw [map_id_of normSep _ (by
    intro c hc
    rcases hmem c hc with h | rfl
    · exact normSep_digit h
    · decide)]
  rw [splitOnCharL_append_sep '/' _ (padTo 2 d)
    (fun c hc => digit_beq_ne '/' (padTo_digits 2 d c hc) (by decide))]
  rw [splitOnCharL_append_sep '/' _ (padTo 2 m)
    (fun c hc => digit_beq_ne '/' (padTo_digits 2 m c hc) (by decide))]
  rw [splitOnCharL_no_sep '/' (padTo 4 y)
    (fun c hc => digit_beq_ne '/' (padTo_digits 4 y c hc) (by decide))]
  have ho : orderOf "dd/MM/yyyy" = .dmy := by decide
  rw [FileProcessor.DATE_FORMATS, List.findSome?_cons]
  rw [ho, tryFormatParts_dmy y m d hy1 hy2 hm1 hm2 hd1 hd2]
  dsimp only [isoFmtC]
  have ty : ((y : Int)).toNat = y := by omega
  have tm : ((m : Int)).toNat = m := by omega
  have td : ((d : Int)).toNat = d := by omega
  rw [ty, tm, td]

/-- A possibly-undefined cell that parsed has a valid ISO date. -/
lemma parseDateOpt_valid (o : Option String) (out : String) :
    FileProcessor.parseDateOpt o = some out → isValidIsoDate out := by
  cases o with
  | none => intro h; exact absurd h (by simp [FileProcessor.parseDateOpt])
  | some s => exact parseDate_valid s out

/-! # Claim theorems -/

/-- C2: a CSV or Excel row yields a transaction only when `parseDate`
returned a date and `parseAmount` a non-null, non-zero amount, taken
from that same row; every accepted transaction carries a real calendar
date (valid ISO rendering) and a non-zero amount; and a row failing the
date or the amount parse contributes a warning with its 1-based row
index and the raw offending token. -/
theorem claim2_row_acceptance_and_warnings :
    (∀ (rows : List FileProcessor.CSVRow) (tx : ProcessedTransaction),
      tx ∈ (FileProcessor.processCSV rows).transactions →
      ∃ j row, rows.get? j = some row ∧
        ∃ dv av, FileProcessor.parseDate (FileProcessor.rowDate row) = some dv ∧
          FileProcessor.parseAmount (FileProcessor.rowAmount row) = some av ∧
          av.mant ≠ 0 ∧ tx.date = dv ∧ tx.amount = av ∧ isValidIsoDate tx.date) ∧
    (∀ (rows : List FileProcessor.CSVRow) (j : Nat) (row : FileProcessor.CSVRow),
      rows.get? j = some row →
      (FileProcessor.parseDate (FileProcessor.rowDate row) = none →
        ("Row " ++ toString (j + 1) ++ ": Could not parse date \"" ++
          FileProcessor.rowDate row ++ "\"") ∈
          (FileProcessor.processCSV rows).warnings) ∧
      (FileProcessor.amountTruthy
          (FileProcessor.parseAmount (FileProcessor.rowAmount row)) = false →
        ("Row " ++ toString (j + 1) ++ ": Could not parse amount \"" ++
          FileProcessor.rowAmount row ++ "\"") ∈
          (FileProcessor.processCSV rows).warnings)) ∧
    (∀ (data : List (List String)) (tx : ProcessedTransaction),
      tx ∈ (FileProcessor.processExcel data).transactions →
      ∃ j row desc, (data.drop 1).get? j = some row ∧ row ≠ [] ∧
        ∃ dv av,
          FileProcessor.parseDateOpt
            (FileProcessor.excelCell row (FileProcessor.dateIdxOf data)) = some dv ∧
          FileProcessor.parseAmountOpt
            (FileProcessor.excelCell row (FileProcessor.amountIdxOf data)) = some av ∧
          av.mant ≠ 0 ∧
          FileProcessor.excelCell row (FileProcessor.descIdxOf data) = some desc ∧
          tx.date = dv ∧ tx.amount = av ∧ isValidIsoDate tx.date) ∧
    (∀ (data : List (List String)) (j : Nat) (row : List String),
      2 ≤ data.length → (data.drop 1).get? j = some row → row ≠ [] →
      (FileProcessor.parseDateOpt
          (FileProcessor.excelCell row (FileProcessor.dateIdxOf data)) = none →
        ("Row " ++ toString (j + 2) ++ ": Could not parse date \"" ++
          FileProcessor.jsShow
            (FileProcessor.excelCell row (FileProcessor.dateIdxOf data)) ++ "\"") ∈
          (FileProcessor.processExcel data).warnings) ∧
      (FileProcessor.amountTruthy (FileProcessor.parseAmountOpt
          (FileProcessor.excelCell row (FileProcessor.amountIdxOf data))) = false →
        ("Row " ++ toString (j + 2) ++ ": Could not parse amount \"" ++
          FileProcessor.jsShow
            (FileProcessor.excelCell row (FileProcessor.amountIdxOf data)) ++ "\"") ∈
          (FileProcessor.processExcel data).warnings)) := by
  refine ⟨?_, ?_, ?_, ?_⟩
  · intro rows tx h
    obtain ⟨j, row, hj, dv, av, hdv, hav, hz, htx⟩ := processRowsCSV_mem rows 0 tx h
    refine ⟨j, row, hj, dv, av, hdv, hav, hz, ?_, ?_, ?_⟩
    · rw [htx]
      rfl
    · rw [htx]
      rfl
    · rw [htx]
      exact parseDate_valid _ _ hdv
  · intro rows j row hj
    have h := processRowsCSV_warn rows 0 j row hj
    simpa using h
  · intro data tx h
    rw [FileProcessor.processExcel] at h
    split_ifs at h with hlen
    · exact absurd h (by simp)
    · dsimp only at h
      obtain ⟨j, row, desc, hj, hne, dv, av, hdv, hav, hz, hdesc, htx⟩ :=
        processRowsExcel_mem (data.drop 1) 1 _ _ _ tx h
      refine ⟨j, row, desc, hj, hne, dv, av, hdv, hav, hz, hdesc, ?_, ?_, ?_⟩
      · rw [htx]
        rfl
      · rw [htx]
        rfl
      · rw [htx]
        exact parseDateOpt_valid _ _ hdv
  · intro data j row hlen hj hne
    rw [FileProcessor.processExcel]
    rw [if_neg (by omega)]
    dsimp only
    have hw := processRowsExcel_warn (data.drop 1)
      1 (FileProcessor.dateIdxOf data) (FileProcessor.amountIdxOf data)
      (FileProcessor.descIdxOf data) j row hj (by simpa using hne)
    have e : 1 + j + 1 = j + 2 := by omega
    rw [e] at hw
    constructor
    · intro hd
      exact List.mem_append_right _ (hw.1 hd)
    · intro ha
      exact List.mem_append_right _ (hw.2 ha)

/-- C2 witness: a row whose date token is unparseable and whose amount is
missing produces both warnings with the row index and raw tokens. -/
theorem claim2_witness :
    ("Row 1: Could not parse date \"nodate\"" ∈
      (FileProcessor.processCSV [[("date", "nodate")]]).warnings) ∧
    ("Row 1: Could not parse amount \"\"" ∈
      (FileProcessor.processCSV [[("date", "nodate")]]).warnings) := by
  have h := claim2_row_acceptance_and_warnings.2.1 [[("date", "nodate")]] 0
    [("date", "nodate")] rfl
  constructor
  · have hd := h.1 (by decide)
    have e : ("Row " ++ toString (0 + 1) ++ ": Could not parse date \"" ++
        FileProcessor.rowDate [("date", "nodate")] ++ "\"") =
        "Row 1: Could not parse date \"nodate\"" := by decide
    rw [e] at hd
    exact hd
  · have ha := h.2 (by decide)
    have e : ("Row " ++ toString (0 + 1) ++ ": Could not parse amount \"" ++
        FileProcessor.rowAmount [("date", "nodate")] ++ "\"") =
        "Row 1: Could not parse amount \"\"" := by decide
    rw [e] at ha
    exact ha

/-- C8 (amended): `parseAmount` maps zero tokens to the number `0`
rather than `null`; since the row-acceptance check tests the amount for
truthiness, a zero amount still never reaches `transactions` — no
accepted transaction has amount zero. -/
theorem claim8_amended :
    FileProcessor.parseAmount "0" = some 0 ∧
    FileProcessor.parseAmount "0.00" = some 0 ∧
    FileProcessor.parseAmount "₹0" = some 0 ∧
    ∀ (rows : List FileProcessor.CSVRow) (tx : ProcessedTransaction),
      tx ∈ (FileProcessor.processCSV rows).transactions → tx.amount ≠ 0 := by
  refine ⟨by decide, by decide, by decide, ?_⟩
  intro rows tx h
  obtain ⟨j, row, hj, dv, av, hdv, hav, hz, htx⟩ := processRowsCSV_mem rows 0 tx h
  rw [htx]
  intro hc
  exact hz (congrArg JsNum.mant hc)

/-- C8 witness: the accepted scenario-A row's transaction has a non-zero
amount. -/
theorem claim8_witness :
    ({ date := "2025-02-15", amount := 500, description := "Swiggy Food Order",
       category := "Food", paymentMode := "UPI",
       merchant := "Swiggy" } : ProcessedTransaction).amount ≠ 0 :=
  claim8_amended.2.2.2
    [[("date", "15/02/2025"), ("amount", "500"), ("description", "Swiggy Food Order")]]
    _ (by decide)

/-- C10 (amended): for every accepted generic CSV or Excel row, the
merchant is the segment of the row's description cell before the first
space character when that segment is non-empty, and `Unknown` otherwise
(in particular `Unknown` whenever the description is empty — and also
when it merely begins with a space); no merchant column is consulted —
the merchant is a function of the description cell alone. -/
theorem claim10_amended :
    (∀ (rows : List FileProcessor.CSVRow) (tx : ProcessedTransaction),
      tx ∈ (FileProcessor.processCSV rows).transactions →
      ∃ j row, rows.get? j = some row ∧
        tx.merchant = (if FileProcessor.jsSplitFirst (FileProcessor.rowDesc row) ≠ "" then
            FileProcessor.jsSplitFirst (FileProcessor.rowDesc row) else "Unknown") ∧
        (FileProcessor.rowDesc row = "" → tx.merchant = "Unknown")) ∧
    (∀ (data : List (List String)) (tx : ProcessedTransaction),
      tx ∈ (FileProcessor.processExcel data).transactions →
      ∃ j row desc, (data.drop 1).get? j = some row ∧
        FileProcessor.excelCell row (FileProcessor.descIdxOf data) = some desc ∧
        tx.merchant = (if FileProcessor.jsSplitFirst desc ≠ "" then
            FileProcessor.jsSplitFirst desc else "Unknown") ∧
        (desc = "" → tx.merchant = "Unknown")) := by
  constructor
  · intro rows tx h
    obtain ⟨j, row, hj, dv, av, hdv, hav, hz, htx⟩ := processRowsCSV_mem rows 0 tx h
    refine ⟨j, row, hj, ?_, ?_⟩
    · rw [htx]
      rfl
    · intro hdd
      rw [htx, FileProcessor.mkTx]
      dsimp only
      rw [hdd]
      decide
  · intro data tx h
    rw [FileProcessor.processExcel] at h
    split_ifs at h with hlen
    · exact absurd h (by simp)
    · dsimp only at h
      obtain ⟨j, row, desc, hj, hne, dv, av, hdv, hav, hz, hdesc, htx⟩ :=
        processRowsExcel_mem (data.drop 1) 1 _ _ _ tx h
      refine ⟨j, row, desc, hj, hdesc, ?_, ?_⟩
      · rw [htx]
        rfl
      · intro hdd
        rw [htx, FileProcessor.mkTx]
        dsimp only
        rw [hdd]
        decide

/-- C10 witness: the scenario-A row's merchant is the pre-space segment
of its description cell. -/
theorem claim10_witness :
    ∃ j row, ([[("date", "15/02/2025"), ("amount", "500"),
        ("description", "Swiggy Food Order")]] :
        List FileProcessor.CSVRow).get? j = some row ∧
      ("Swiggy" : String) =
        (if FileProcessor.jsSplitFirst (FileProcessor.rowDesc row) ≠ "" then
          FileProcessor.jsSplitFirst (FileProcessor.rowDesc row) else "Unknown") ∧
      (FileProcessor.rowDesc row = "" → ("Swiggy" : String) = "Unknown") :=
  claim10_amended.1 _
    { date := "2025-02-15", amount := 500, description := "Swiggy Food Order",
      category := "Food", paymentMode := "UPI", merchant := "Swiggy" }
    (by decide)

/-- C1: for every input file `processFile` returns an `ExtractionResult`
and never throws — the router is a total dispatch whose every branch,
including the unsupported-type branch, yields a result; an unsupported
file type is reported as a diagnostic string in `errors`, not as an
exception. -/
theorem claim1_router_total_and_unsupported : ∀ f : FileProcessor.FileInput,
    (FileProcessor.processFile f = FileProcessor.processCSV f.csvData ∨
     FileProcessor.processFile f = FileProcessor.processExcel f.excelData ∨
     FileProcessor.processFile f = FileProcessor.processPDF ∨
     FileProcessor.processFile f =
       ⟨[], ["Unsupported file type: " ++ f.fileType], []⟩) ∧
    (FileProcessor.isSupportedFile f = false →
     FileProcessor.processFile f =
       ⟨[], ["Unsupported file type: " ++ f.fileType], []⟩) := by
  intro f
  constructor
  · unfold FileProcessor.processFile
    split_ifs <;> tauto
  · intro h
    simp only [FileProcessor.isSupportedFile, Bool.or_eq_false_iff] at h
    obtain ⟨⟨h1, h2⟩, h3⟩ := h
    simp [FileProcessor.processFile, h1, h2, h3]

/-- C1 witness: a `.txt` upload is routed to the unsupported branch and
its failure is the diagnostic string. -/
theorem claim1_witness :
    FileProcessor.processFile ⟨"statement.txt", "text/plain", [], []⟩ =
      ⟨[], ["Unsupported file type: text/plain"], []⟩ := by
  have h := (claim1_router_total_and_unsupported
    ⟨"statement.txt", "text/plain", [], []⟩).2 (by decide)
  have e : ("Unsupported file type: " ++ "text/plain" : String) =
      "Unsupported file type: text/plain" := by decide
  rw [e] at h
  exact h

/-- C3: on the PhonePe statement text
`Feb 13, 2025 Paid to Swiggy DEBIT ₹250` the pattern matcher extracts
exactly one transaction, dated `2025-02-13`, with amount `-250` (DEBIT
maps to a negative amount), merchant `Swiggy` and category `Food`. -/
theorem claim3_phonepe_scenario :
    PhonePe.processPhonePeText "Feb 13, 2025 Paid to Swiggy DEBIT ₹250" =
      [{ date := "2025-02-13", amount := -250,
         description := "PhonePe DEBIT to Swiggy", category := "Food",
         paymentMode := "UPI", merchant := "Swiggy" }] := by decide

/-- C4 (failing input): on a sheet with both a `Credit` and a `Debit`
column and the row `Credit=0, Debit=250`, `processExcel` does not
compute `credit − debit = -250`; it selects the `Credit` column as the
single amount column (the first header containing an amount candidate),
parses `0`, and drops the row with a warning — no transaction at all is
produced. -/
theorem claim4_credit_debit_failing_input :
    FileProcessor.processExcel
        [["Date", "Credit", "Debit", "Description"],
         ["15/02/2025", "0", "250", "Payment"]] =
      ⟨[], [], ["Row 2: Could not parse amount \"0\""]⟩ := by decide

/-- C5 counterexample: on the capitalized header row
`Date,Amount,Description` with data row `15/02/2025,500,Swiggy Food
Order`, `processCSV` produces no transaction at all (the claim says
exactly one): the column lookup is an exact, case-sensitive key access
with lower-case candidate names. -/
theorem claim5_counterexample :
    (FileProcessor.processCSV
        [[("Date", "15/02/2025"), ("Amount", "500"),
          ("Description", "Swiggy Food Order")]]).transactions = [] := by decide

/-- C5 (amended): `processCSV` matches header names by exact
(case-sensitive) key lookup against the lower-case candidate lists, the
first candidate with a non-empty cell winning in candidate-list order;
with lower-case headers `date,amount,description` the scenario row
yields exactly the claimed transaction, and the candidate order gives
`amount` priority over `debit` regardless of the row's key order. -/
theorem claim5_amended :
    FileProcessor.processCSV
        [[("date", "15/02/2025"), ("amount", "500"),
          ("description", "Swiggy Food Order")]] =
      ⟨[{ date := "2025-02-15", amount := 500,
          description := "Swiggy Food Order", category := "Food",
          paymentMode := "UPI", merchant := "Swiggy" }], [], []⟩ ∧
    (FileProcessor.processCSV
        [[("date", "15/02/2025"), ("debit", "250"), ("amount", "500"),
          ("description", "X")]]).transactions =
      [{ date := "2025-02-15", amount := 500, description := "X",
         category := "Miscellaneous", paymentMode := "UPI",
         merchant := "X" }] := by decide

/-- C6 counterexample: the fileProcessor `parseDate` does not return
`null` on `31/04/2025` (day 31 in a 30-day month); its validation checks
only the year, so the date silently rolls over to `2025-05-01`. -/
theorem claim6_counterexample :
    FileProcessor.parseDate "31/04/2025" = some "2025-05-01" := by decide

/-- C6 (amended): the UniversalUPIProcessor `parseDate`, whose validation
re-checks all three components, does return `null` on `31/04/2025`; and
the round-trip law holds for the fileProcessor `parseDate` on the
`dd/MM/yyyy` input format: for every valid calendar date with a
four-digit year, parsing its zero-padded rendering returns exactly its
ISO form. -/
theorem claim6_amended :
    UniversalUPI.parseDate "31/04/2025" = none ∧
    ∀ y m d : Nat, 100 ≤ y → y ≤ 9999 → 1 ≤ m → m ≤ 12 → 1 ≤ d →
      (d : Int) ≤ monthLen (y : Int) (m : Int) →
      FileProcessor.parseDate (fmtDMY d m y) = some (fmtISO y m d) := by
  constructor
  · decide
  · intro y m d hy1 hy2 hm1 hm2 hd1 hd2
    unfold FileProcessor.parseDate fmtDMY fmtISO
    have hdata : (String.mk (padTo 2 d ++ '/' :: (padTo 2 m ++ '/' :: padTo 4 y))).data
        = padTo 2 d ++ '/' :: (padTo 2 m ++ '/' :: padTo 4 y) := rfl
    rw [hdata, parseDateCore_fmtDMY y m d hy1 hy2 hm1 hm2 hd1 hd2]
    rfl

/-- C6 witness: the amended round-trip at 15 February 2025. -/
theorem claim6_witness :
    FileProcessor.parseDate "15/02/2025" = some "2025-02-15" := by
  have h := claim6_amended.2 2025 2 15 (by decide) (by decide) (by decide)
    (by decide) (by decide) (by decide)
  have e1 : fmtDMY 15 2 2025 = "15/02/2025" := by decide
  have e2 : fmtISO 2025 2 15 = "2025-02-15" := by decide
  rw [e1, e2] at h
  exact h

/-- C7 (failing input): `parseAmount "Rs. 1,234.50 Dr"` returns `-1234.5`
in neither implementation: the fileProcessor version strips only the
characters `()DrC`, so the `Rs.` prefix survives and `parseFloat` yields
`NaN` (`null`); the UniversalUPIProcessor version removes the `Dr`
suffix before its (lower-case) negativity test and returns `+1234.5`. -/
theorem claim7_parseAmount_failing_input :
    FileProcessor.parseAmount "Rs. 1,234.50 Dr" = none ∧
    UniversalUPI.parseAmount "Rs. 1,234.50 Dr" = some (1234.5 : JsNum) := by decide

/-- C8 counterexample: `parseAmount` applied to the zero token `"0"`
returns the number `0`, not `null`. -/
theorem claim8_counterexample :
    FileProcessor.parseAmount "0" = some 0 := by decide

/-- C9 counterexample: the GPay processor's categorizer (a categorization
path of the pipeline) returns `Other` on a non-matching input — a value
outside the fixed nine-category enumeration, not `Miscellaneous`. -/
theorem claim9_counterexample :
    GPay.categorizeTransaction "" = "Other" ∧
    "Other" ∉ specCategories := by decide

/-- Totality of the fileProcessor categorizer over the spec enum. -/
lemma catMem_fileProcessor (s t : String) :
    FileProcessor.categorizeTransaction s t ∈ specCategories := by
  unfold FileProcessor.categorizeTransaction
  dsimp only
  split_ifs <;> simp [specCategories]

/-- Totality of the UniversalUPIProcessor categorizer over the spec
enum. -/
lemma catMem_universalUPI (s t : String) :
    UniversalUPI.categorizeTransaction s t ∈ specCategories := by
  unfold UniversalUPI.categorizeTransaction
  dsimp only
  split_ifs <;> simp [specCategories]

/-- Totality of the PhonePe categorizer over the spec enum. -/
lemma catMem_phonePe (s : String) :
    PhonePe.categorizeTransaction s ∈ specCategories := by
  unfold PhonePe.categorizeTransaction
  dsimp only
  split_ifs <;> simp [specCategories]

/-- Totality of the GPay categorizer over the enum extended with its
`Other` fallback. -/
lemma catMem_gpay (s : String) :
    GPay.categorizeTransaction s ∈ "Other" :: specCategories := by
  unfold GPay.categorizeTransaction
  dsimp only
  split_ifs <;> simp [specCategories]

/-- Totality of the Paytm categorizer over the enum extended with its
`Other` fallback. -/
lemma catMem_paytm (s : String) :
    Paytm.categorizeTransaction s ∈ "Other" :: specCategories := by
  unfold Paytm.categorizeTransaction
  dsimp only
  split_ifs <;> simp [specCategories]

/-- Totality of the SuperMoney categorizer over the enum extended with
its `Other` fallback. -/
lemma catMem_superMoney (s : String) :
    SuperMoney.categorizeTransaction s ∈ "Other" :: specCategories := by
  unfold SuperMoney.categorizeTransaction
  dsimp only
  split_ifs <;> simp [specCategories]

/-- C9 (amended): every categorizer in the pipeline is total and returns
a value from a fixed finite set; the fileProcessor,
UniversalUPIProcessor and PhonePe categorizers return one of the nine
spec categories with `Miscellaneous` as the no-match fallback, while the
GPay, Paytm and SuperMoney PDF processors use the same chains with
`Other` as the fallback. -/
theorem claim9_amended : ∀ s t : String,
    (FileProcessor.categorizeTransaction s t ∈ specCategories ∧
     UniversalUPI.categorizeTransaction s t ∈ specCategories ∧
     PhonePe.categorizeTransaction s ∈ specCategories ∧
     GPay.categorizeTransaction s ∈ "Other" :: specCategories ∧
     Paytm.categorizeTransaction s ∈ "Other" :: specCategories ∧
     SuperMoney.categorizeTransaction s ∈ "Other" :: specCategories) ∧
    (FileProcessor.categorizeTransaction "" "" = "Miscellaneous" ∧
     UniversalUPI.categorizeTransaction "" "" = "Miscellaneous" ∧
     PhonePe.categorizeTransaction "" = "Miscellaneous" ∧
     GPay.categorizeTransaction "" = "Other" ∧
     Paytm.categorizeTransaction "" = "Other" ∧
     SuperMoney.categorizeTransaction "" = "Other") := by
  intro s t
  exact ⟨⟨catMem_fileProcessor s t, catMem_universalUPI s t, catMem_phonePe s,
    catMem_gpay s, catMem_paytm s, catMem_superMoney s⟩, by decide⟩

/-- C10 counterexample: an accepted CSV row whose description cell is
`" Swiggy"` (non-empty, leading space) yields merchant `Unknown`, not
the first whitespace-separated token `Swiggy`: the code takes
`split(' ')[0]`, which is the empty segment before the leading space. -/
theorem claim10_counterexample :
    FileProcessor.processCSV
        [[("date", "15/02/2025"), ("amount", "500"),
          ("description", " Swiggy")]] =
      ⟨[{ date := "2025-02-15", amount := 500, description := " Swiggy",
          category := "Food", paymentMode := "UPI",
          merchant := "Unknown" }], [], []⟩ ∧
    (" Swiggy" : String) ≠ "" := by decide

end Expense
